import Mathlib

/-!
Verification development for the H3DNet ScanNet label-synthesis code
(`scannet/scannet_detection_dataset_hd.py`).  The Python routines are shallowly
embedded: numpy float arrays become lists over `ℝ`, integer label arrays become
lists over `ℤ`, and fallible numpy operations (shape-mismatch broadcasts)
become `Option` results.  External code that lives outside this repository
(`scipy.optimize.leastsq`, `pc_util.random_sampling`, the
`ScannetDatasetConfig` tables) is taken as uninterpreted parameters or
modelled from the specification, as noted at each definition.
-/

namespace H3DNet

/-! ### Geometry kernel -/

/-- A 3-d point, mirroring one row of a numpy `(N,3)` array. -/
abbrev Pt3 : Type := ℝ × ℝ × ℝ

/-- Dot product of two 3-vectors, mirroring `np.sum(a * b)` on rows. -/
def dot3 (a b : Pt3) : ℝ := a.1 * b.1 + a.2.1 * b.2.1 + a.2.2 * b.2.2

/-- Scalar multiple of a 3-vector, mirroring `v * c` in numpy. -/
def smul3 (c : ℝ) (a : Pt3) : Pt3 := (c * a.1, c * a.2.1, c * a.2.2)

/-- Squared euclidean distance between two points, mirroring
`np.sum(np.square(a - b))` as in `pdist2` and at line 344. -/
def sqdist3 (a b : Pt3) : ℝ :=
  (a.1 - b.1) ^ 2 + (a.2.1 - b.2.1) ^ 2 + (a.2.2 - b.2.2) ^ 2

/-- `params2bbox(center, xsize, ysize, zsize, angle)` from
`scannet_detection_dataset_hd.py` lines 41-62: the 8 box corners, in the fixed
order `[xmin ymin zmin], [xmin ymin zmax], [xmin ymax zmin], [xmin ymax zmax],
[xmax ymin zmin], [xmax ymin zmax], [xmax ymax zmin], [xmax ymax zmax]`. -/
noncomputable def params2bbox (center : Pt3) (xsize ysize zsize angle : ℝ) :
    List Pt3 :=
  let vx := smul3 (|xsize| / 2) (Real.cos angle, Real.sin angle, 0)
  let vy := smul3 (|ysize| / 2) (-Real.sin angle, Real.cos angle, 0)
  let vz : Pt3 := (0, 0, |zsize| / 2)
  [ center - vx - vy - vz, center - vx - vy + vz,
    center - vx + vy - vz, center - vx + vy + vz,
    center + vx - vy - vz, center + vx - vy + vz,
    center + vx + vy - vz, center + vx + vy + vz ]

/-- Rotation of a vector about the z axis by a given angle (spec-side notion
used to state the corner-construction property of `params2bbox`). -/
noncomputable def rotZ (angle : ℝ) (p : Pt3) : Pt3 :=
  (Real.cos angle * p.1 - Real.sin angle * p.2.1,
   Real.sin angle * p.1 + Real.cos angle * p.2.1,
   p.2.2)

/-- The 8 sign combinations in the documented bit order (x-sign, y-sign,
z-sign), minus first. -/
def cornerSigns : List Pt3 :=
  [(-1, -1, -1), (-1, -1, 1), (-1, 1, -1), (-1, 1, 1),
   (1, -1, -1), (1, -1, 1), (1, 1, -1), (1, 1, 1)]

/-- Spec-side restatement of the corner construction: each corner is the
center plus the z-rotation (by the heading) of a sign combination of
half-extents. -/
noncomputable def bboxCornersSpec (center : Pt3) (xsize ysize zsize angle : ℝ) :
    List Pt3 :=
  cornerSigns.map (fun s =>
    center +
      rotZ angle (s.1 * (|xsize| / 2), s.2.1 * (|ysize| / 2), s.2.2 * (|zsize| / 2)))

/-- The minimum of a list of reals (`np.min`). -/
noncomputable def listMin : List ℝ → ℝ
  | [] => 0
  | [x] => x
  | x :: y :: ys => min x (listMin (y :: ys))

/-- `np.argmin` over a 1-d array: the index of the first element attaining the
minimum (numpy returns the first occurrence on ties). -/
noncomputable def firstArgmin : List ℝ → ℕ
  | [] => 0
  | [_] => 0
  | x :: y :: ys =>
    if x ≤ listMin (y :: ys) then 0 else firstArgmin (y :: ys) + 1

/-! ### Plane equations -/

/-- A 4-parameter plane equation `a·x + b·y + c·z + d = 0`, mirroring the
4-vectors returned by `leastsq` and built by `np.concatenate` in the source. -/
structure Plane4 where
  a : ℝ
  b : ℝ
  c : ℝ
  d : ℝ

instance : Inhabited Plane4 := ⟨⟨0, 0, 0, 0⟩⟩

/-- The normal part `p[0:3]` of a plane 4-vector. -/
def Plane4.normal (p : Plane4) : Pt3 := (p.a, p.b, p.c)

/-- The derived opposite face of a fitted plane, mirroring lines 375-377 (and
380-382, 385-387): `newd = np.sum(para_points * plane[:3], 1)` followed by
`np.concatenate([plane[:3], [-np.mean(newd)]])`.  The normal is reused
unchanged; only the offset is recomputed from the 4 opposite corners. -/
noncomputable def oppositePlane (base : Plane4) (paraPoints : List Pt3) :
    Plane4 :=
  let newd := paraPoints.map (fun q => dot3 q base.normal)
  ⟨base.a, base.b, base.c, -(newd.sum / (newd.length : ℝ))⟩

/-- The six face planes of one instance. -/
structure SixPlanes where
  lower : Plane4
  upper : Plane4
  left : Plane4
  right : Plane4
  front : Plane4
  back : Plane4

/-- Lines 373-395 of `__getitem__`: fit the lower, left and front faces by
least squares over the 4 corners bounding each face, and derive the upper,
right and back faces from the fitted normal and the opposite corner
quadruple.  `fitPlane guess pts` stands for
`leastsq(residuals, guess, args=(None, pts.T))[0]`, an external `scipy`
routine, taken as an uninterpreted parameter. -/
noncomputable def computePlanes (fitPlane : Plane4 → List Pt3 → Plane4)
    (corners : List Pt3) : SixPlanes :=
  let c := fun k => corners.getD k 0
  let lower := fitPlane ⟨0, 0, 1, 0⟩ [c 0, c 2, c 4, c 6]
  let upper := oppositePlane lower [c 1, c 3, c 5, c 7]
  let left := fitPlane ⟨1, 0, 0, 0⟩ [c 0, c 1, c 2, c 3]
  let right := oppositePlane left [c 4, c 5, c 6, c 7]
  let front := fitPlane ⟨0, 1, 0, 0⟩ [c 0, c 1, c 4, c 5]
  let back := oppositePlane front [c 2, c 3, c 6, c 7]
  ⟨lower, upper, left, right, front, back⟩

/-! ### Heading discretization (external `ScannetDatasetConfig`) -/

/-- Modelled from the spec: `ScannetDatasetConfig.angle2class2` (the class
`model_util_scannet.ScannetDatasetConfig` is not part of this repository).
Per the spec it partitions `(-π, π]` into `numBins` equal sectors; the class
is the sector containing the angle and the residual is the signed offset from
the sector center. -/
noncomputable def angle2class2 (numBins : ℕ) (angle : ℝ) : ℤ × ℝ :=
  let w := 2 * Real.pi / (numBins : ℝ)
  let cls := ⌈(angle + Real.pi) / w⌉ - 1
  (cls, angle - (-Real.pi + ((cls : ℝ) + 1 / 2) * w))

/-- Modelled from the spec: `ScannetDatasetConfig.class2angle2`, the inverse
of `angle2class2` — the sector center plus the residual. -/
noncomputable def class2angle2 (numBins : ℕ) (cls : ℤ) (residual : ℝ) : ℝ :=
  -Real.pi + ((cls : ℝ) + 1 / 2) * (2 * Real.pi / (numBins : ℝ)) + residual

/-! ### List utilities (numpy primitives) -/

/-- Numpy integer fancy indexing `xs[idxs]` on a 1-d array (lines 216-225,
358-365). -/
def gather (xs : List α) (idxs : List ℕ) (dflt : α) : List α :=
  idxs.map (fun i => xs.getD i dflt)

def idxWhereAux (p : α → Bool) : List α → ℕ → List ℕ
  | [], _ => []
  | x :: xs, k =>
    if p x then k :: idxWhereAux p xs (k + 1) else idxWhereAux p xs (k + 1)

/-- `np.where(condition)[0]`: the increasing list of indices whose element
satisfies the predicate. -/
def idxWhere (p : α → Bool) (xs : List α) : List ℕ := idxWhereAux p xs 0

def insertSorted (x : ℤ) : List ℤ → List ℤ
  | [] => [x]
  | y :: ys => if x ≤ y then x :: y :: ys else y :: insertSorted x ys

def sortInts (xs : List ℤ) : List ℤ := xs.foldr insertSorted []

/-- `np.unique` on an integer array: the sorted list of distinct values. -/
def uniqueSorted (xs : List ℤ) : List ℤ := sortInts xs.dedup

/-- Fancy-indexed assignment `arr[idxs] = value(idx)` (lines 339-341, 347,
371, 390-395); numpy never sees out-of-range indices here, and such writes
are dropped. -/
def writeAt (xs : List α) (idxs : List ℕ) (f : ℕ → α) : List α :=
  idxs.foldl (fun acc j => acc.set j (f j)) xs

/-! ### Metadata rows and subsampling (lines 163-225) -/

/-- One row of the per-point metadata array `meta_vertices` (9 columns:
center xyz, size xyz, heading, instance id, semantic id); lines 183-184 of
the source read the instance and semantic labels from the last two columns. -/
structure MetaRow where
  cx : ℝ
  cy : ℝ
  cz : ℝ
  sx : ℝ
  sy : ℝ
  sz : ℝ
  heading : ℝ
  ins : ℤ
  sem : ℤ

instance : Inhabited MetaRow := ⟨⟨0, 0, 0, 0, 0, 0, 0, 0, 0⟩⟩

/-- `meta[:3]`, the object center (line 334). -/
def MetaRow.center (m : MetaRow) : Pt3 := (m.cx, m.cy, m.cz)

/-- One row of the `plane_vertices` array: the 4-component plane estimate
(`plane_vertices[:,:4]`) and the plane-patch indicator (`plane_vertices[:,4]`,
read at line 358). -/
structure PlaneRow where
  est : Plane4
  patch : ℤ

instance : Inhabited PlaneRow := ⟨⟨default, 0⟩⟩

/-- The per-scene arrays as loaded, before subsampling: point cloud,
per-point metadata rows, `plane_vertices` rows and point colors. -/
structure RawScene where
  pointCloud : List Pt3
  metas : List MetaRow
  planeVerts : List PlaneRow
  pclColor : List Pt3

/-- `instance_labels = meta_vertices[:,-2]` (line 183). -/
def rawInstanceLabels (raw : RawScene) : List ℤ :=
  raw.metas.map (fun m => m.ins)

/-- Modelled from the spec: `pc_util.random_sampling` (the module `pc_util`
is not part of this repository) draws `num_points` indices without
replacement; the successive draws made by the loop are abstracted into a list
of candidate index lists.  The rejection loop of lines 211-219 accepts the
first draw whose sampled instance-id set (compared as `np.unique` arrays,
i.e. sorted distinct values) equals the full one, and runs out of fuel when
the candidates are exhausted. -/
def resampleChoices (instanceLabels : List ℤ) :
    List (List ℕ) → Option (List ℕ)
  | [] => none
  | choices :: rest =>
    if uniqueSorted (gather instanceLabels choices 0) =
        uniqueSorted instanceLabels then
      some choices
    else
      resampleChoices instanceLabels rest

/-- The arrays after the subsampling block (lines 211-225), each indexed by
the accepted choices, which are also kept for the statement of C1. -/
structure SampledScene where
  pointCloud : List Pt3
  metas : List MetaRow
  planeVerts : List PlaneRow
  pclColor : List Pt3
  choices : List ℕ

/-- Lines 211-225 of `__getitem__`: rejection resampling followed by indexing
every companion array (`instance_labels`, `semantic_labels`,
`plane_vertices`, `meta_vertices`, `pcl_color` — the label arrays being
columns of the metadata) by the accepted `choices`. -/
def subsampleScene (raw : RawScene) (draws : List (List ℕ)) :
    Option SampledScene :=
  match resampleChoices (rawInstanceLabels raw) draws with
  | none => none
  | some choices =>
    some ⟨gather raw.pointCloud choices 0, gather raw.metas choices default,
      gather raw.planeVerts choices default, gather raw.pclColor choices 0,
      choices⟩

/-! ### The per-instance label-synthesis loop (lines 278-424) -/

/-- The scene arrays consumed by the label-synthesis loop after subsampling:
`point_cloud[:,:3]`, the metadata rows (whose last two columns are the
instance and semantic labels), and the plane-patch indicator column
`plane_vertices[:,4]`. -/
structure Scene where
  pts : List Pt3
  metas : List MetaRow
  planeInd : List ℤ

/-- `instance_labels` (line 183, after subsampling). -/
def instanceLabels (sc : Scene) : List ℤ := sc.metas.map (fun m => m.ins)

/-- `semantic_labels` (line 184, after subsampling). -/
def semanticLabels (sc : Scene) : List ℤ := sc.metas.map (fun m => m.sem)

/-- The number of label rows. -/
def labelsLen (sc : Scene) : ℕ := (instanceLabels sc).length

/-- The instance id of point `i`. -/
def labelAt (sc : Scene) (i : ℕ) : ℤ := (instanceLabels sc).getD i 0

/-- `ind = np.where(instance_labels == i_instance)[0]` (line 325). -/
def memberIdx (sc : Scene) (iInstance : ℤ) : List ℕ :=
  idxWhere (fun l => l == iInstance) (instanceLabels sc)

/-- The retention test of line 327: the semantic label of the instance's
first member point lies in the valid-object-class table `DC.nyu40ids` (an
external configuration array, taken as the parameter `validIds`). -/
def retained (validIds : List ℤ) (sc : Scene) (iInstance : ℤ) : Bool :=
  match memberIdx sc iInstance with
  | [] => false
  | i0 :: _ => decide ((semanticLabels sc).getD i0 0 ∈ validIds)

/-- Whether the instance owning point `i` is retained. -/
def retainedAt (validIds : List ℤ) (sc : Scene) (i : ℕ) : Bool :=
  retained validIds sc (labelAt sc i)

/-- Line 330: the canonical metadata row of an instance, read from its first
member point (`meta_vertices[ind[0]]`). -/
def instMeta (sc : Scene) (iInstance : ℤ) : MetaRow :=
  sc.metas.getD ((memberIdx sc iInstance).headD 0) default

/-- Line 337: the 8 corners of an instance box. -/
noncomputable def instCorners (sc : Scene) (iInstance : ℤ) : List Pt3 :=
  params2bbox (instMeta sc iInstance).center (instMeta sc iInstance).sx
    (instMeta sc iInstance).sy (instMeta sc iInstance).sz
    (instMeta sc iInstance).heading

/-- `plane_indicator = plane_vertices[ind, 4]` (line 358). -/
def planeIndicatorOf (sc : Scene) (iInstance : ℤ) : List ℤ :=
  gather sc.planeInd (memberIdx sc iInstance) 0

/-- `len(np.where(plane_indicator == p)[0])`: the number of member points of
the instance tagged with patch id `p` (line 363-364). -/
def groupSize (sc : Scene) (iInstance : ℤ) (p : ℤ) : ℕ :=
  (idxWhere (fun q => q == p) (planeIndicatorOf sc iInstance)).length

/-- Lines 359-368: the retained plane groups of an instance — for each
distinct positive patch id with strictly more than 10 member points, the
member-point indices `ind[temp_ind]` of that patch, in patch-id order. -/
def planeGroupsOf (sc : Scene) (iInstance : ℤ) : List (List ℕ) :=
  (uniqueSorted (planeIndicatorOf sc iInstance)).filterMap (fun p =>
    if 0 < p then
      if 10 < groupSize sc iInstance p then
        some (gather (memberIdx sc iInstance)
          (idxWhere (fun q => q == p) (planeIndicatorOf sc iInstance)) 0)
      else none
    else none)

/-- `plane_ind = np.concatenate(plane_ind, 0)` (line 370). -/
def planeIdxOf (sc : Scene) (iInstance : ℤ) : List ℕ :=
  (planeGroupsOf sc iInstance).flatten

/-- The plane-patch indicator of point `i`. -/
def planeVal (sc : Scene) (i : ℕ) : ℤ := sc.planeInd.getD i 0

/-- The per-point and per-instance accumulator arrays of the loop (lines
278-291 initialize them to zeros; `obj_meta` is the growing list of line
321). -/
structure LoopState where
  pointVotes : List Pt3
  pointVotesCorner : List Pt3
  pointVotesMask : List ℝ
  pointSemLabel : List ℝ
  planeLabelMask : List ℝ
  planeVotesFront : List Plane4
  planeVotesBack : List Plane4
  planeVotesLeft : List Plane4
  planeVotesRight : List Plane4
  planeVotesUpper : List Plane4
  planeVotesLower : List Plane4
  objMeta : List MetaRow

/-- Lines 278-291: all accumulator arrays start as zeros of length
`num_points`. -/
def initState (n : ℕ) : LoopState :=
  ⟨List.replicate n 0, List.replicate n 0, List.replicate n 0,
   List.replicate n 0, List.replicate n 0,
   List.replicate n default, List.replicate n default,
   List.replicate n default, List.replicate n default,
   List.replicate n default, List.replicate n default, []⟩

/-- The body of the per-instance loop, lines 323-424 of `__getitem__`.  The
external tables `DC.nyu40ids` and `DC.nyu40id2class_sem` are the parameters
`validIds` and `sem2clsSem`; `scipy.optimize.leastsq` is the parameter
`fitPlane`.  Notes on fidelity: `ind[0]` is the head of `memberIdx`; the
plane writes only happen under the guard `len(plane_ind) > 0` of line 369,
mirrored by the inner `if`. -/
noncomputable def processInstance (fitPlane : Plane4 → List Pt3 → Plane4)
    (validIds : List ℤ) (sem2clsSem : ℤ → ℤ) (sc : Scene)
    (s : LoopState) (iInstance : ℤ) : LoopState :=
  let ind := memberIdx sc iInstance
  if retained validIds sc iInstance then
    let meta := instMeta sc iInstance
    let center := meta.center
    let corners := instCorners sc iInstance
    let pt := fun i => sc.pts.getD i 0
    let base : LoopState :=
      { pointVotes := writeAt s.pointVotes ind (fun i => center - pt i),
        pointVotesCorner := writeAt s.pointVotesCorner ind (fun i =>
          corners.getD
            (firstArgmin (corners.map (fun c => sqdist3 (pt i) c))) 0 - pt i),
        pointVotesMask := writeAt s.pointVotesMask ind (fun _ => 1),
        pointSemLabel := writeAt s.pointSemLabel ind
          (fun _ => ((sem2clsSem meta.sem : ℤ) : ℝ)),
        planeLabelMask := s.planeLabelMask,
        planeVotesFront := s.planeVotesFront,
        planeVotesBack := s.planeVotesBack,
        planeVotesLeft := s.planeVotesLeft,
        planeVotesRight := s.planeVotesRight,
        planeVotesUpper := s.planeVotesUpper,
        planeVotesLower := s.planeVotesLower,
        objMeta := s.objMeta ++ [meta] }
    if 0 < (planeGroupsOf sc iInstance).length then
      let planeIdx := planeIdxOf sc iInstance
      let six := computePlanes fitPlane corners
      { base with
        planeLabelMask := writeAt s.planeLabelMask planeIdx (fun _ => 1),
        planeVotesFront := writeAt s.planeVotesFront planeIdx (fun _ => six.front),
        planeVotesBack := writeAt s.planeVotesBack planeIdx (fun _ => six.back),
        planeVotesLeft := writeAt s.planeVotesLeft planeIdx (fun _ => six.left),
        planeVotesRight := writeAt s.planeVotesRight planeIdx (fun _ => six.right),
        planeVotesUpper := writeAt s.planeVotesUpper planeIdx (fun _ => six.upper),
        planeVotesLower := writeAt s.planeVotesLower planeIdx (fun _ => six.lower) }
    else base
  else s

/-- Lines 323-424: iterate the loop body over `np.unique(instance_labels)`,
starting from the zero arrays. -/
noncomputable def runInstances (fitPlane : Plane4 → List Pt3 → Plane4)
    (validIds : List ℤ) (sem2clsSem : ℤ → ℤ) (sc : Scene) : LoopState :=
  (uniqueSorted (instanceLabels sc)).foldl
    (processInstance fitPlane validIds sem2clsSem sc)
    (initState sc.pts.length)

/-- The center vote stored for point `i` of a retained instance:
`center - x` (line 339). -/
noncomputable def centerVoteAt (sc : Scene) (i : ℕ) : Pt3 :=
  (instMeta sc (labelAt sc i)).center - sc.pts.getD i 0

/-- The squared distances of point `i` to the 8 corners of its instance box
(line 344). -/
noncomputable def cornerDists (sc : Scene) (i : ℕ) : List ℝ :=
  (instCorners sc (labelAt sc i)).map (fun c => sqdist3 (sc.pts.getD i 0) c)

/-- The corner vote stored for point `i` of a retained instance:
`corners[sel_corner[i]] - x[i]` (lines 345-347). -/
noncomputable def cornerVoteAt (sc : Scene) (i : ℕ) : Pt3 :=
  (instCorners sc (labelAt sc i)).getD (firstArgmin (cornerDists sc i)) 0 -
    sc.pts.getD i 0

/-- The semantic class label stored for point `i` of a retained instance:
`DC.nyu40id2class_sem[meta[-1]]` (line 341). -/
noncomputable def semLabelAt (sem2clsSem : ℤ → ℤ) (sc : Scene) (i : ℕ) : ℝ :=
  ((sem2clsSem (instMeta sc (labelAt sc i)).sem : ℤ) : ℝ)

/-- The six face planes computed for the instance owning point `i`
(lines 373-395). -/
noncomputable def sixAt (fitPlane : Plane4 → List Pt3 → Plane4) (sc : Scene)
    (i : ℕ) : SixPlanes :=
  computePlanes fitPlane (instCorners sc (labelAt sc i))

/-- `num_instance = len(obj_meta)` (line 425): the number of retained
instances. -/
def numRetained (validIds : List ℤ) (sc : Scene) : ℕ :=
  ((uniqueSorted (instanceLabels sc)).filter
    (fun l => retained validIds sc l)).length

/-! ### Target-array assembly (lines 425-442) -/

/-- The fixed-width (`MAX_NUM_OBJ = 64`) per-instance target arrays. -/
structure TargetArrays where
  centerLabel : List Pt3
  boxLabelMask : List ℝ
  angleClasses : List ℤ
  angleResiduals : List ℝ
  sizeClasses : List ℕ
  sizeResiduals : List Pt3
  semClsLabel : List ℤ

/-- Lines 425-442 plus the class-label packing at lines 476-478.  When a
scene has more retained instances than `MAX_NUM_OBJ = 64`, the numpy slice
assignment `target_bboxes[0:num_instance,:6] = obj_meta[:,0:6]` (line 430)
broadcasts an array of length `num_instance` into a slice clipped to length
64 and raises a `ValueError` (as do lines 433-435, and line 441 an
`IndexError`), so no target arrays are produced: `none`.  Otherwise each
fixed-width array holds the per-instance values in slots `0..num_instance`
and zeros beyond.  The external tables `DC.nyu40ids`, `DC.mean_size_arr`
and `DC.nyu40id2class` are the parameters `validIds`, `meanSize` and
`sem2cls`.  The assertion of line 442 always succeeds (theorem
`class2angle2_angle2class2` below) and is therefore not a failure case. -/
noncomputable def assembleTargets (validIds : List ℤ) (sem2cls : ℤ → ℤ)
    (meanSize : ℕ → Pt3) (numBins : ℕ) (objMeta : List MetaRow) :
    Option TargetArrays :=
  if 64 < objMeta.length then none
  else
    some
      { centerLabel := (List.range 64).map (fun j =>
          if j < objMeta.length then (objMeta.getD j default).center else 0),
        boxLabelMask := (List.range 64).map (fun j =>
          if j < objMeta.length then (1 : ℝ) else 0),
        angleClasses := (List.range 64).map (fun j =>
          if j < objMeta.length then
            (angle2class2 numBins (objMeta.getD j default).heading).1
          else 0),
        angleResiduals := (List.range 64).map (fun j =>
          if j < objMeta.length then
            (angle2class2 numBins (objMeta.getD j default).heading).2
          else 0),
        sizeClasses := (List.range 64).map (fun j =>
          if j < objMeta.length then
            validIds.indexOf (objMeta.getD j default).sem
          else 0),
        sizeResiduals := (List.range 64).map (fun j =>
          if j < objMeta.length then
            ((objMeta.getD j default).sx, (objMeta.getD j default).sy,
              (objMeta.getD j default).sz) -
              meanSize (validIds.indexOf (objMeta.getD j default).sem)
          else 0),
        semClsLabel := (List.range 64).map (fun j =>
          if j < objMeta.length then sem2cls (objMeta.getD j default).sem
          else 0) }

/-- The parts of the returned `ret_dict` covered by the claims (lines
467-511); the `np.tile` triplications of lines 445-465 repeat each per-point
vote three times unchanged and are omitted. -/
structure LabelBundle where
  points : List Pt3
  labels : LoopState
  targets : TargetArrays

/-- The label-synthesis part of `__getitem__` after subsampling: the
per-instance loop followed by target assembly (the voxel branch of lines
261-269 calls `pc_util` routines outside this repository and is out of
scope here). -/
noncomputable def getitemLabels (fitPlane : Plane4 → List Pt3 → Plane4)
    (validIds : List ℤ) (sem2clsSem sem2cls : ℤ → ℤ) (meanSize : ℕ → Pt3)
    (numBins : ℕ) (sc : Scene) : Option LabelBundle :=
  match assembleTargets validIds sem2cls meanSize numBins
      (runInstances fitPlane validIds sem2clsSem sc).objMeta with
  | none => none
  | some t => some ⟨sc.pts, runInstances fitPlane validIds sem2clsSem sc, t⟩

/-! ### Concrete inputs for witnesses and counterexamples -/

/-- A trivial stand-in for the external least-squares routine, used when a
witness needs a concrete `fitPlane`. -/
def fitZero : Plane4 → List Pt3 → Plane4 := fun _ _ => default

/-- A trivial semantic-class table for witnesses. -/
def semMapZero : ℤ → ℤ := fun _ => 0

/-- A trivial mean-size table for witnesses. -/
def meanSizeZero : ℕ → Pt3 := fun _ => 0

/-- A tiny concrete raw scene used to witness C1: two points with instance
ids 1 and 2. -/
def rawSceneA : RawScene :=
  ⟨[(0, 0, 0), (1, 1, 1)],
   [⟨0, 0, 0, 0, 0, 0, 0, 1, 3⟩, ⟨1, 1, 1, 0, 0, 0, 0, 2, 4⟩],
   [⟨⟨0, 0, 0, 0⟩, 1⟩, ⟨⟨0, 0, 0, 0⟩, 1⟩],
   [(0, 0, 0), (0, 0, 0)]⟩

/-- A one-point scene whose single instance (id 1, semantic id 3) is
retained when `validIds = [3]`. -/
def sceneOne : Scene :=
  ⟨[(0, 0, 0)], [⟨1, 2, 3, 2, 2, 2, 0, 1, 3⟩], [0]⟩

/-- A one-point scene whose single instance has semantic id 99, not in
`[3]`: not retained. -/
def sceneBad : Scene :=
  ⟨[(0, 0, 0)], [⟨1, 2, 3, 2, 2, 2, 0, 1, 99⟩], [0]⟩

/-- A scene with one retained instance of 10 points, all in plane patch 1:
the patch has exactly 10 support points. -/
def scene10 : Scene :=
  ⟨List.replicate 10 (0, 0, 0),
   List.replicate 10 ⟨0, 0, 0, 2, 2, 2, 0, 1, 3⟩,
   List.replicate 10 1⟩

/-- A scene with one retained instance of 11 points, all in plane patch 1:
the patch has strictly more than 10 support points. -/
def scene11 : Scene :=
  ⟨List.replicate 11 (0, 0, 0),
   List.replicate 11 ⟨0, 0, 0, 2, 2, 2, 0, 1, 3⟩,
   List.replicate 11 1⟩

/-- A scene with 65 one-point retained instances (ids 1..65), exceeding
`MAX_NUM_OBJ = 64`. -/
def scene65 : Scene :=
  ⟨List.replicate 65 (0, 0, 0),
   (List.range 65).map (fun k => ⟨0, 0, 0, 2, 2, 2, 0, (k : ℤ) + 1, 3⟩),
   List.replicate 65 0⟩

/-! ### Theorems -/

/-- The angle discretization round-trip is exact in real arithmetic: the
residual is by construction the offset from the reconstructed sector
center. -/
theorem class2angle2_angle2class2 (numBins : ℕ) (angle : ℝ) :
    class2angle2 numBins (angle2class2 numBins angle).1
      (angle2class2 numBins angle).2 = angle := by
  simp only [angle2class2, class2angle2]
  ring

/-- C2: for every heading angle in `(-π, π]` and any positive number of
heading bins, converting with `angle2class2` and back with `class2angle2`
recovers the angle within an absolute tolerance of `1e-6` (the round-trip is
exact in real arithmetic), so the assertion at line 442 of `__getitem__`
never fails on the documented domain. -/
theorem c2_angle_roundtrip (numBins : ℕ) (angle : ℝ) (hpos : 0 < numBins)
    (hlo : -Real.pi < angle) (hhi : angle ≤ Real.pi) :
    |class2angle2 numBins (angle2class2 numBins angle).1
        (angle2class2 numBins angle).2 - angle| < 1e-6 := by
  rw [class2angle2_angle2class2]
  norm_num

/-- Witness for C2 at 24 bins and heading 0. -/
theorem c2_angle_roundtrip_witness :
    (0 < 24 ∧ -Real.pi < (0 : ℝ) ∧ (0 : ℝ) ≤ Real.pi) ∧
    |class2angle2 24 (angle2class2 24 0).1 (angle2class2 24 0).2 - 0| < 1e-6 :=
  ⟨⟨by norm_num, neg_lt_zero.mpr Real.pi_pos, Real.pi_pos.le⟩,
    c2_angle_roundtrip 24 0 (by norm_num) (neg_lt_zero.mpr Real.pi_pos)
      Real.pi_pos.le⟩

/-- C8: `params2bbox` at center `(0,0,0)`, sizes `(2,2,2)` and heading `0`
returns exactly the 8 corners `(±1,±1,±1)` in the documented bit order, and
in general each corner is the center plus a sign combination of half-extents
with the x/y axes rotated by the heading about z and the z axis unrotated. -/
theorem c8_params2bbox_corners :
    params2bbox (0, 0, 0) 2 2 2 0 =
      [(-1, -1, -1), (-1, -1, 1), (-1, 1, -1), (-1, 1, 1),
       (1, -1, -1), (1, -1, 1), (1, 1, -1), (1, 1, 1)] ∧
    ∀ (center : Pt3) (xsize ysize zsize angle : ℝ),
      params2bbox center xsize ysize zsize angle =
        bboxCornersSpec center xsize ysize zsize angle := by
  constructor
  · norm_num [params2bbox, smul3, Prod.ext_iff]
  · rintro ⟨cx, cy, cz⟩ xsize ysize zsize angle
    simp only [params2bbox, bboxCornersSpec, cornerSigns, rotZ, smul3,
      List.map_cons, List.map_nil, Prod.mk_sub_mk, Prod.mk_add_mk,
      List.cons.injEq, Prod.mk.injEq, and_true]
    repeat' apply And.intro
    all_goals ring

/-- C3: in `computePlanes` the derived upper, right and back planes reuse,
component for component, the least-squares normal of their fitted paired face
(lower, left, front), and their offset is the negated mean of the dot
products of that shared normal with the 4 corners of the opposite face; the
opposite face is never independently fit. -/
theorem c3_opposite_face_planes (fitPlane : Plane4 → List Pt3 → Plane4)
    (c0 c1 c2 c3 c4 c5 c6 c7 : Pt3) :
    ((computePlanes fitPlane [c0, c1, c2, c3, c4, c5, c6, c7]).upper.normal =
        (computePlanes fitPlane [c0, c1, c2, c3, c4, c5, c6, c7]).lower.normal ∧
      (computePlanes fitPlane [c0, c1, c2, c3, c4, c5, c6, c7]).upper.d =
        -((dot3 c1 (computePlanes fitPlane [c0, c1, c2, c3, c4, c5, c6, c7]).lower.normal +
           dot3 c3 (computePlanes fitPlane [c0, c1, c2, c3, c4, c5, c6, c7]).lower.normal +
           dot3 c5 (computePlanes fitPlane [c0, c1, c2, c3, c4, c5, c6, c7]).lower.normal +
           dot3 c7 (computePlanes fitPlane [c0, c1, c2, c3, c4, c5, c6, c7]).lower.normal) / 4)) ∧
    ((computePlanes fitPlane [c0, c1, c2, c3, c4, c5, c6, c7]).right.normal =
        (computePlanes fitPlane [c0, c1, c2, c3, c4, c5, c6, c7]).left.normal ∧
      (computePlanes fitPlane [c0, c1, c2, c3, c4, c5, c6, c7]).right.d =
        -((dot3 c4 (computePlanes fitPlane [c0, c1, c2, c3, c4, c5, c6, c7]).left.normal +
           dot3 c5 (computePlanes fitPlane [c0, c1, c2, c3, c4, c5, c6, c7]).left.normal +
           dot3 c6 (computePlanes fitPlane [c0, c1, c2, c3, c4, c5, c6, c7]).left.normal +
           dot3 c7 (computePlanes fitPlane [c0, c1, c2, c3, c4, c5, c6, c7]).left.normal) / 4)) ∧
    ((computePlanes fitPlane [c0, c1, c2, c3, c4, c5, c6, c7]).back.normal =
        (computePlanes fitPlane [c0, c1, c2, c3, c4, c5, c6, c7]).front.normal ∧
      (computePlanes fitPlane [c0, c1, c2, c3, c4, c5, c6, c7]).back.d =
        -((dot3 c2 (computePlanes fitPlane [c0, c1, c2, c3, c4, c5, c6, c7]).front.normal +
           dot3 c3 (computePlanes fitPlane [c0, c1, c2, c3, c4, c5, c6, c7]).front.normal +
           dot3 c6 (computePlanes fitPlane [c0, c1, c2, c3, c4, c5, c6, c7]).front.normal +
           dot3 c7 (computePlanes fitPlane [c0, c1, c2, c3, c4, c5, c6, c7]).front.normal) / 4)) := by
  simp only [computePlanes, oppositePlane, Plane4.normal, List.map_cons,
    List.map_nil, List.sum_cons, List.sum_nil, List.length_cons,
    List.length_nil, List.getD_cons_zero, List.getD_cons_succ]
  norm_num
  repeat' apply And.intro
  all_goals ring

theorem getD_set_ne {xs : List α} {j i : ℕ} {v d : α} (h : i ≠ j) :
    (xs.set j v).getD i d = xs.getD i d := by
  induction xs generalizing i j with
  | nil => simp
  | cons x xs ih =>
    cases j with
    | zero =>
      cases i with
      | zero => exact absurd rfl h
      | succ i => simp [List.set_cons_zero]
    | succ j =>
      cases i with
      | zero => simp [List.set_cons_succ]
      | succ i =>
        simp only [List.set_cons_succ, List.getD_cons_succ]
        exact ih (fun e => h (by omega))

theorem getD_set_self {xs : List α} {j : ℕ} {v d : α} (h : j < xs.length) :
    (xs.set j v).getD j d = v := by
  induction xs generalizing j with
  | nil => simp at h
  | cons x xs ih =>
    cases j with
    | zero => simp [List.set_cons_zero]
    | succ j =>
      simp only [List.set_cons_succ, List.getD_cons_succ]
      exact ih (by simpa using h)

theorem writeAt_nil (xs : List α) (f : ℕ → α) : writeAt xs [] f = xs := rfl

theorem writeAt_cons (xs : List α) (j : ℕ) (rest : List ℕ) (f : ℕ → α) :
    writeAt xs (j :: rest) f = writeAt (xs.set j (f j)) rest f := rfl

theorem writeAt_length (xs : List α) (idxs : List ℕ) (f : ℕ → α) :
    (writeAt xs idxs f).length = xs.length := by
  induction idxs generalizing xs with
  | nil => rfl
  | cons j rest ih =>
    rw [writeAt_cons, ih, List.length_set]

theorem getD_writeAt_not_mem {xs : List α} {idxs : List ℕ} {f : ℕ → α}
    {i : ℕ} {d : α} (h : i ∉ idxs) :
    (writeAt xs idxs f).getD i d = xs.getD i d := by
  induction idxs generalizing xs with
  | nil => rfl
  | cons j rest ih =>
    rw [writeAt_cons, ih (fun hr => h (List.mem_cons_of_mem j hr)),
      getD_set_ne (fun e => h (by rw [e]; exact List.mem_cons_self j rest))]

theorem getD_writeAt_mem {xs : List α} {idxs : List ℕ} {f : ℕ → α} {i : ℕ}
    {d : α} (h : i ∈ idxs) (hlt : i < xs.length) :
    (writeAt xs idxs f).getD i d = f i := by
  induction idxs generalizing xs with
  | nil => simp at h
  | cons j rest ih =>
    by_cases hr : i ∈ rest
    · rw [writeAt_cons]
      exact ih hr (by rw [List.length_set]; exact hlt)
    · have hij : i = j := by
        rcases List.mem_cons.mp h with h1 | h2
        · exact h1
        · exact absurd h2 hr
      subst hij
      rw [writeAt_cons, getD_writeAt_not_mem hr, getD_set_self hlt]

theorem getD_writeAt_ge {xs : List α} {idxs : List ℕ} {f : ℕ → α} {i : ℕ}
    {d : α} (h : xs.length ≤ i) :
    (writeAt xs idxs f).getD i d = d :=
  List.getD_eq_default _ _ (by rw [writeAt_length]; exact h)

theorem getD_replicate_self {a : α} {n i : ℕ} :
    (List.replicate n a).getD i a = a := by
  induction n generalizing i with
  | zero => simp
  | succ n ih =>
    cases i with
    | zero => simp [List.replicate_succ]
    | succ i => simpa [List.replicate_succ] using ih

theorem getD_map_default (f : α → β) (xs : List α) (n : ℕ) (d : α) :
    (xs.map f).getD n (f d) = f (xs.getD n d) := by
  induction xs generalizing n with
  | nil => simp
  | cons x xs ih => cases n <;> simp [ih]

theorem getD_map_lt (f : α → β) {xs : List α} {n : ℕ} (h : n < xs.length)
    (d : β) (d2 : α) : (xs.map f).getD n d = f (xs.getD n d2) := by
  rw [List.getD_eq_getElem _ _ (by simpa using h), List.getD_eq_getElem _ _ h,
    List.getElem_map]

theorem getD_mem_of_lt {xs : List α} {n : ℕ} (h : n < xs.length) (d : α) :
    xs.getD n d ∈ xs := by
  rw [List.getD_eq_getElem _ _ h]
  exact List.getElem_mem h

theorem gather_length (xs : List α) (idxs : List ℕ) (d : α) :
    (gather xs idxs d).length = idxs.length := by
  simp [gather]

theorem mem_gather {x : α} {xs : List α} {idxs : List ℕ} {d : α} :
    x ∈ gather xs idxs d ↔ ∃ t ∈ idxs, x = xs.getD t d := by
  simp [gather, List.mem_map, eq_comm]

theorem getD_gather {xs : List α} {idxs : List ℕ} {t : ℕ}
    (h : t < idxs.length) (d : α) :
    (gather xs idxs d).getD t d = xs.getD (idxs.getD t 0) d := by
  rw [gather, getD_map_lt _ h]

theorem mem_idxWhereAux {p : α → Bool} (d : α) :
    ∀ (xs : List α) (k j : ℕ),
      j ∈ idxWhereAux p xs k ↔
        ∃ t, t < xs.length ∧ j = k + t ∧ p (xs.getD t d) = true := by
  intro xs
  induction xs with
  | nil => intro k j; simp [idxWhereAux]
  | cons x xs ih =>
    intro k j
    rw [idxWhereAux]
    by_cases hp : p x
    · rw [if_pos hp]
      simp only [List.mem_cons]
      constructor
      · rintro (rfl | hr)
        · exact ⟨0, by simp, by simp, by simpa using hp⟩
        · obtain ⟨t, ht, hj, hpt⟩ := (ih (k + 1) j).mp hr
          exact ⟨t + 1, by simpa using Nat.succ_lt_succ ht, by omega,
            by simpa using hpt⟩
      · rintro ⟨t, ht, hj, hpt⟩
        cases t with
        | zero => left; omega
        | succ t =>
          right
          refine (ih (k + 1) j).mpr ⟨t, ?_, by omega, ?_⟩
          · exact Nat.lt_of_succ_lt_succ (by simpa using ht)
          · simpa using hpt
    · rw [if_neg hp]
      rw [ih (k + 1) j]
      constructor
      · rintro ⟨t, ht, hj, hpt⟩
        exact ⟨t + 1, by simpa using Nat.succ_lt_succ ht, by omega,
          by simpa using hpt⟩
      · rintro ⟨t, ht, hj, hpt⟩
        cases t with
        | zero =>
          rw [List.getD_cons_zero] at hpt
          exact absurd hpt hp
        | succ t =>
          refine ⟨t, ?_, by omega, ?_⟩
          · exact Nat.lt_of_succ_lt_succ (by simpa using ht)
          · simpa using hpt

theorem mem_idxWhere {p : α → Bool} {xs : List α} {j : ℕ} (d : α) :
    j ∈ idxWhere p xs ↔ j < xs.length ∧ p (xs.getD j d) = true := by
  rw [idxWhere, mem_idxWhereAux d]
  constructor
  · rintro ⟨t, ht, hj, hpt⟩
    have : j = t := by omega
    subst this
    exact ⟨ht, hpt⟩
  · rintro ⟨hj, hp⟩
    exact ⟨j, hj, by omega, hp⟩

theorem mem_memberIdx {sc : Scene} {l : ℤ} {i : ℕ} :
    i ∈ memberIdx sc l ↔ i < labelsLen sc ∧ labelAt sc i = l := by
  rw [memberIdx, mem_idxWhere (0 : ℤ)]
  simp [labelsLen, labelAt]

theorem processInstance_not_retained {f : Plane4 → List Pt3 → Plane4}
    {V : List ℤ} {g : ℤ → ℤ} {sc : Scene} {s : LoopState} {l : ℤ}
    (hc : retained V sc l = false) :
    processInstance f V g sc s l = s := by
  rw [processInstance]
  simp [hc]

theorem processInstance_pointVotes {f : Plane4 → List Pt3 → Plane4}
    {V : List ℤ} {g : ℤ → ℤ} {sc : Scene} {s : LoopState} {l : ℤ}
    (hc : retained V sc l = true) :
    (processInstance f V g sc s l).pointVotes =
      writeAt s.pointVotes (memberIdx sc l)
        (fun i => (instMeta sc l).center - sc.pts.getD i 0) := by
  simp only [processInstance, hc, if_true]
  split <;> rfl

theorem processInstance_pointVotesCorner {f : Plane4 → List Pt3 → Plane4}
    {V : List ℤ} {g : ℤ → ℤ} {sc : Scene} {s : LoopState} {l : ℤ}
    (hc : retained V sc l = true) :
    (processInstance f V g sc s l).pointVotesCorner =
      writeAt s.pointVotesCorner (memberIdx sc l) (fun i =>
        (instCorners sc l).getD
          (firstArgmin ((instCorners sc l).map
            (fun c => sqdist3 (sc.pts.getD i 0) c))) 0 - sc.pts.getD i 0) := by
  simp only [processInstance, hc, if_true]
  split <;> rfl

theorem processInstance_pointVotesMask {f : Plane4 → List Pt3 → Plane4}
    {V : List ℤ} {g : ℤ → ℤ} {sc : Scene} {s : LoopState} {l : ℤ}
    (hc : retained V sc l = true) :
    (processInstance f V g sc s l).pointVotesMask =
      writeAt s.pointVotesMask (memberIdx sc l) (fun _ => (1 : ℝ)) := by
  simp only [processInstance, hc, if_true]
  split <;> rfl

theorem processInstance_pointSemLabel {f : Plane4 → List Pt3 → Plane4}
    {V : List ℤ} {g : ℤ → ℤ} {sc : Scene} {s : LoopState} {l : ℤ}
    (hc : retained V sc l = true) :
    (processInstance f V g sc s l).pointSemLabel =
      writeAt s.pointSemLabel (memberIdx sc l)
        (fun _ => ((g (instMeta sc l).sem : ℤ) : ℝ)) := by
  simp only [processInstance, hc, if_true]
  split <;> rfl

theorem processInstance_objMeta {f : Plane4 → List Pt3 → Plane4}
    {V : List ℤ} {g : ℤ → ℤ} {sc : Scene} {s : LoopState} {l : ℤ}
    (hc : retained V sc l = true) :
    (processInstance f V g sc s l).objMeta = s.objMeta ++ [instMeta sc l] := by
  simp only [processInstance, hc, if_true]
  split <;> rfl

theorem planeIdxOf_eq_nil {sc : Scene} {l : ℤ}
    (h : ¬0 < (planeGroupsOf sc l).length) : planeIdxOf sc l = [] := by
  have hg : planeGroupsOf sc l = [] := List.length_eq_zero.mp (by omega)
  rw [planeIdxOf, hg, List.flatten_nil]

theorem processInstance_planeLabelMask {f : Plane4 → List Pt3 → Plane4}
    {V : List ℤ} {g : ℤ → ℤ} {sc : Scene} {s : LoopState} {l : ℤ}
    (hc : retained V sc l = true) :
    (processInstance f V g sc s l).planeLabelMask =
      writeAt s.planeLabelMask (planeIdxOf sc l) (fun _ => (1 : ℝ)) := by
  simp only [processInstance, hc, if_true]
  split
  · rfl
  · next h => rw [planeIdxOf_eq_nil h, writeAt_nil]

theorem processInstance_planeVotesFront {f : Plane4 → List Pt3 → Plane4}
    {V : List ℤ} {g : ℤ → ℤ} {sc : Scene} {s : LoopState} {l : ℤ}
    (hc : retained V sc l = true) :
    (processInstance f V g sc s l).planeVotesFront =
      writeAt s.planeVotesFront (planeIdxOf sc l)
        (fun _ => (computePlanes f (instCorners sc l)).front) := by
  simp only [processInstance, hc, if_true]
  split
  · rfl
  · next h => rw [planeIdxOf_eq_nil h, writeAt_nil]

theorem processInstance_planeVotesBack {f : Plane4 → List Pt3 → Plane4}
    {V : List ℤ} {g : ℤ → ℤ} {sc : Scene} {s : LoopState} {l : ℤ}
    (hc : retained V sc l = true) :
    (processInstance f V g sc s l).planeVotesBack =
      writeAt s.planeVotesBack (planeIdxOf sc l)
        (fun _ => (computePlanes f (instCorners sc l)).back) := by
  simp only [processInstance, hc, if_true]
  split
  · rfl
  · next h => rw [planeIdxOf_eq_nil h, writeAt_nil]

theorem processInstance_planeVotesLeft {f : Plane4 → List Pt3 → Plane4}
    {V : List ℤ} {g : ℤ → ℤ} {sc : Scene} {s : LoopState} {l : ℤ}
    (hc : retained V sc l = true) :
    (processInstance f V g sc s l).planeVotesLeft =
      writeAt s.planeVotesLeft (planeIdxOf sc l)
        (fun _ => (computePlanes f (instCorners sc l)).left) := by
  simp only [processInstance, hc, if_true]
  split
  · rfl
  · next h => rw [planeIdxOf_eq_nil h, writeAt_nil]

theorem processInstance_planeVotesRight {f : Plane4 → List Pt3 → Plane4}
    {V : List ℤ} {g : ℤ → ℤ} {sc : Scene} {s : LoopState} {l : ℤ}
    (hc : retained V sc l = true) :
    (processInstance f V g sc s l).planeVotesRight =
      writeAt s.planeVotesRight (planeIdxOf sc l)
        (fun _ => (computePlanes f (instCorners sc l)).right) := by
  simp only [processInstance, hc, if_true]
  split
  · rfl
  · next h => rw [planeIdxOf_eq_nil h, writeAt_nil]

theorem processInstance_planeVotesUpper {f : Plane4 → List Pt3 → Plane4}
    {V : List ℤ} {g : ℤ → ℤ} {sc : Scene} {s : LoopState} {l : ℤ}
    (hc : retained V sc l = true) :
    (processInstance f V g sc s l).planeVotesUpper =
      writeAt s.planeVotesUpper (planeIdxOf sc l)
        (fun _ => (computePlanes f (instCorners sc l)).upper) := by
  simp only [processInstance, hc, if_true]
  split
  · rfl
  · next h => rw [planeIdxOf_eq_nil h, writeAt_nil]

theorem processInstance_planeVotesLower {f : Plane4 → List Pt3 → Plane4}
    {V : List ℤ} {g : ℤ → ℤ} {sc : Scene} {s : LoopState} {l : ℤ}
    (hc : retained V sc l = true) :
    (processInstance f V g sc s l).planeVotesLower =
      writeAt s.planeVotesLower (planeIdxOf sc l)
        (fun _ => (computePlanes f (instCorners sc l)).lower) := by
  simp only [processInstance, hc, if_true]
  split
  · rfl
  · next h => rw [planeIdxOf_eq_nil h, writeAt_nil]

theorem step_getD_char {step : LoopState → ℤ → LoopState}
    {A : LoopState → List α} {cond : ℤ → Bool} {W : ℤ → List ℕ}
    {Vl : ℤ → ℕ → α} {val : ℕ → α} {d : α}
    (h1 : ∀ s l, cond l = false → A (step s l) = A s)
    (h2 : ∀ s l, cond l = true → A (step s l) = writeAt (A s) (W l) (Vl l))
    (h3 : ∀ l i, i ∈ W l → Vl l i = val i) (s : LoopState) (l : ℤ) (i : ℕ) :
    (A (step s l)).getD i d =
      if cond l = true ∧ i ∈ W l ∧ i < (A s).length then val i
      else (A s).getD i d := by
  cases hc : cond l with
  | false =>
    rw [h1 s l hc, if_neg]
    rintro ⟨hct, -⟩
    exact Bool.false_ne_true hct
  | true =>
    rw [h2 s l hc]
    by_cases hw : i ∈ W l
    · by_cases hi : i < (A s).length
      · rw [getD_writeAt_mem hw hi, h3 l i hw, if_pos ⟨rfl, hw, hi⟩]
      · rw [getD_writeAt_ge (le_of_not_lt hi),
          List.getD_eq_default _ _ (le_of_not_lt hi), if_neg]
        rintro ⟨-, -, hi2⟩
        exact hi hi2
    · rw [getD_writeAt_not_mem hw, if_neg]
      rintro ⟨-, hw2, -⟩
      exact hw hw2

theorem step_length_char {step : LoopState → ℤ → LoopState}
    {A : LoopState → List α} {cond : ℤ → Bool} {W : ℤ → List ℕ}
    {Vl : ℤ → ℕ → α}
    (h1 : ∀ s l, cond l = false → A (step s l) = A s)
    (h2 : ∀ s l, cond l = true → A (step s l) = writeAt (A s) (W l) (Vl l))
    (s : LoopState) (l : ℤ) : (A (step s l)).length = (A s).length := by
  cases hc : cond l with
  | false => rw [h1 s l hc]
  | true => rw [h2 s l hc, writeAt_length]

theorem foldl_getD_char {step : LoopState → ℤ → LoopState}
    {A : LoopState → List α} {cond : ℤ → Bool} {W : ℤ → List ℕ}
    {Vl : ℤ → ℕ → α} {val : ℕ → α} {d : α}
    (h1 : ∀ s l, cond l = false → A (step s l) = A s)
    (h2 : ∀ s l, cond l = true → A (step s l) = writeAt (A s) (W l) (Vl l))
    (h3 : ∀ l i, i ∈ W l → Vl l i = val i) :
    ∀ (L : List ℤ) (s : LoopState) (i : ℕ),
      (A (L.foldl step s)).getD i d =
        if (∃ l ∈ L, cond l = true ∧ i ∈ W l) ∧ i < (A s).length then val i
        else (A s).getD i d := by
  intro L
  induction L with
  | nil =>
    intro s i
    simp
  | cons l L ih =>
    intro s i
    rw [List.foldl_cons, ih (step s l) i,
      step_length_char h1 h2 s l, step_getD_char h1 h2 h3 s l i]
    have hiff : ((∃ x ∈ l :: L, cond x = true ∧ i ∈ W x) ∧
        i < (A s).length) ↔
        (((∃ x ∈ L, cond x = true ∧ i ∈ W x) ∧ i < (A s).length) ∨
          (cond l = true ∧ i ∈ W l ∧ i < (A s).length)) := by
      simp only [List.mem_cons]
      constructor
      · rintro ⟨⟨x, (rfl | hx), hcx, hwx⟩, hi⟩
        · right; exact ⟨hcx, hwx, hi⟩
        · left; exact ⟨⟨x, hx, hcx, hwx⟩, hi⟩
      · rintro (⟨⟨x, hx, hcx, hwx⟩, hi⟩ | ⟨hcl, hwl, hi⟩)
        · exact ⟨⟨x, Or.inr hx, hcx, hwx⟩, hi⟩
        · exact ⟨⟨l, Or.inl rfl, hcl, hwl⟩, hi⟩
    by_cases hA : (∃ x ∈ L, cond x = true ∧ i ∈ W x) ∧ i < (A s).length
    · simp [hA, hiff]
    · by_cases hB : cond l = true ∧ i ∈ W l ∧ i < (A s).length
      · simp [hA, hB, hiff]
      · rw [if_neg hA, if_neg hB, if_neg]
        rintro ⟨⟨x, hx, hcx, hwx⟩, hi⟩
        rcases List.mem_cons.mp hx with rfl | hx2
        · exact hB ⟨hcx, hwx, hi⟩
        · exact hA ⟨⟨x, hx2, hcx, hwx⟩, hi⟩

theorem mem_insertSorted {x y : ℤ} {xs : List ℤ} :
    y ∈ insertSorted x xs ↔ y = x ∨ y ∈ xs := by
  induction xs with
  | nil => simp [insertSorted]
  | cons z zs ih =>
    by_cases h : x ≤ z <;> simp [insertSorted, h, ih] <;> tauto

theorem mem_sortInts {y : ℤ} {xs : List ℤ} : y ∈ sortInts xs ↔ y ∈ xs := by
  induction xs with
  | nil => simp [sortInts]
  | cons z zs ih =>
    simp only [sortInts, List.foldr_cons] at *
    simp [mem_insertSorted, ih]

theorem mem_uniqueSorted {y : ℤ} {xs : List ℤ} :
    y ∈ uniqueSorted xs ↔ y ∈ xs := by
  simp [uniqueSorted, mem_sortInts, List.mem_dedup]

theorem labelsLen_eq (sc : Scene) : labelsLen sc = sc.metas.length := by
  simp [labelsLen, instanceLabels]

theorem planeIndicatorOf_length (sc : Scene) (l : ℤ) :
    (planeIndicatorOf sc l).length = (memberIdx sc l).length := by
  rw [planeIndicatorOf, gather_length]

theorem getD_planeIndicatorOf {sc : Scene} {l : ℤ} {t : ℕ}
    (h : t < (memberIdx sc l).length) :
    (planeIndicatorOf sc l).getD t 0 =
      planeVal sc ((memberIdx sc l).getD t 0) := by
  rw [planeIndicatorOf, getD_gather h, planeVal]

theorem mem_planeIdxOf {sc : Scene} {l : ℤ} {i : ℕ} :
    i ∈ planeIdxOf sc l ↔
      i ∈ memberIdx sc l ∧ 0 < planeVal sc i ∧
        10 < groupSize sc l (planeVal sc i) := by
  rw [planeIdxOf, List.mem_flatten]
  constructor
  · rintro ⟨grp, hgrp, higrp⟩
    rw [planeGroupsOf, List.mem_filterMap] at hgrp
    obtain ⟨p, hp, hsome⟩ := hgrp
    by_cases hpp : 0 < p
    swap
    · rw [if_neg hpp] at hsome
      exact absurd hsome (by simp)
    rw [if_pos hpp] at hsome
    by_cases hgl : 10 < groupSize sc l p
    swap
    · rw [if_neg hgl] at hsome
      exact absurd hsome (by simp)
    rw [if_pos hgl] at hsome
    obtain rfl : gather (memberIdx sc l)
        (idxWhere (fun q => q == p) (planeIndicatorOf sc l)) 0 = grp := by
      injection hsome
    obtain ⟨t, htmem, hti⟩ := mem_gather.mp higrp
    obtain ⟨htlt, htp⟩ := (mem_idxWhere (0 : ℤ)).mp htmem
    rw [planeIndicatorOf_length] at htlt
    have hpveq : planeVal sc i = p := by
      rw [hti, ← getD_planeIndicatorOf htlt]
      exact beq_iff_eq.mp htp
    refine ⟨?_, ?_, ?_⟩
    · rw [hti]
      exact getD_mem_of_lt htlt 0
    · rw [hpveq]
      exact hpp
    · rw [hpveq]
      exact hgl
  · rintro ⟨him, hpv, hgs⟩
    obtain ⟨t, ht, hit⟩ := List.mem_iff_getElem.mp him
    have hind : (memberIdx sc l).getD t 0 = i := by
      rw [List.getD_eq_getElem _ _ ht, hit]
    have hpt : (planeIndicatorOf sc l).getD t 0 = planeVal sc i := by
      rw [getD_planeIndicatorOf ht, hind]
    have hplen : t < (planeIndicatorOf sc l).length := by
      rw [planeIndicatorOf_length]
      exact ht
    have hpmem : planeVal sc i ∈ planeIndicatorOf sc l := by
      rw [← hpt]
      exact getD_mem_of_lt hplen 0
    refine ⟨gather (memberIdx sc l)
      (idxWhere (fun q => q == planeVal sc i) (planeIndicatorOf sc l)) 0,
      ?_, ?_⟩
    · rw [planeGroupsOf, List.mem_filterMap]
      exact ⟨planeVal sc i, mem_uniqueSorted.mpr hpmem,
        by rw [if_pos hpv, if_pos hgs]⟩
    · rw [mem_gather]
      refine ⟨t, ?_, hind.symm⟩
      rw [mem_idxWhere (0 : ℤ)]
      exact ⟨hplen, by rw [hpt]; simp⟩

theorem exists_member_iff (V : List ℤ) (sc : Scene) (i : ℕ) :
    (∃ l ∈ uniqueSorted (instanceLabels sc),
      retained V sc l = true ∧ i ∈ memberIdx sc l) ↔
      i < labelsLen sc ∧ retainedAt V sc i = true := by
  constructor
  · rintro ⟨l, hl, hr, hm⟩
    obtain ⟨hlt, hlab⟩ := mem_memberIdx.mp hm
    refine ⟨hlt, ?_⟩
    rw [retainedAt, hlab]
    exact hr
  · rintro ⟨hlt, hr⟩
    exact ⟨labelAt sc i, mem_uniqueSorted.mpr (getD_mem_of_lt hlt 0), hr,
      mem_memberIdx.mpr ⟨hlt, rfl⟩⟩

theorem exists_plane_iff (V : List ℤ) (sc : Scene) (i : ℕ) :
    (∃ l ∈ uniqueSorted (instanceLabels sc),
      retained V sc l = true ∧ i ∈ planeIdxOf sc l) ↔
      i < labelsLen sc ∧ retainedAt V sc i = true ∧ 0 < planeVal sc i ∧
        10 < groupSize sc (labelAt sc i) (planeVal sc i) := by
  constructor
  · rintro ⟨l, hl, hr, hm⟩
    obtain ⟨him, hpv, hgs⟩ := mem_planeIdxOf.mp hm
    obtain ⟨hlt, hlab⟩ := mem_memberIdx.mp him
    subst hlab
    exact ⟨hlt, hr, hpv, hgs⟩
  · rintro ⟨hlt, hr, hpv, hgs⟩
    exact ⟨labelAt sc i, mem_uniqueSorted.mpr (getD_mem_of_lt hlt 0), hr,
      mem_planeIdxOf.mpr ⟨mem_memberIdx.mpr ⟨hlt, rfl⟩, hpv, hgs⟩⟩

theorem runInstances_pointVotes (f : Plane4 → List Pt3 → Plane4) (V : List ℤ)
    (g : ℤ → ℤ) (sc : Scene) (i : ℕ) :
    (runInstances f V g sc).pointVotes.getD i 0 =
      if i < labelsLen sc ∧ i < sc.pts.length ∧ retainedAt V sc i = true
      then centerVoteAt sc i else 0 := by
  rw [runInstances, @foldl_getD_char Pt3 (processInstance f V g sc)
    (fun s => s.pointVotes) (retained V sc) (memberIdx sc)
    (fun l j => (instMeta sc l).center - sc.pts.getD j 0)
    (centerVoteAt sc) 0
    (fun s l hc => by rw [processInstance_not_retained hc])
    (fun s l hc => processInstance_pointVotes hc)
    (fun l j hj => by rw [centerVoteAt, (mem_memberIdx.mp hj).2])
    (uniqueSorted (instanceLabels sc)) (initState sc.pts.length) i]
  simp only [initState, List.length_replicate]
  rw [getD_replicate_self]
  exact if_congr (by rw [exists_member_iff]; tauto) rfl rfl

theorem runInstances_pointVotesCorner (f : Plane4 → List Pt3 → Plane4)
    (V : List ℤ) (g : ℤ → ℤ) (sc : Scene) (i : ℕ) :
    (runInstances f V g sc).pointVotesCorner.getD i 0 =
      if i < labelsLen sc ∧ i < sc.pts.length ∧ retainedAt V sc i = true
      then cornerVoteAt sc i else 0 := by
  rw [runInstances, @foldl_getD_char Pt3 (processInstance f V g sc)
    (fun s => s.pointVotesCorner) (retained V sc) (memberIdx sc)
    (fun l j => (instCorners sc l).getD
      (firstArgmin ((instCorners sc l).map
        (fun c => sqdist3 (sc.pts.getD j 0) c))) 0 - sc.pts.getD j 0)
    (cornerVoteAt sc) 0
    (fun s l hc => by rw [processInstance_not_retained hc])
    (fun s l hc => processInstance_pointVotesCorner hc)
    (fun l j hj => by rw [cornerVoteAt, cornerDists, (mem_memberIdx.mp hj).2])
    (uniqueSorted (instanceLabels sc)) (initState sc.pts.length) i]
  simp only [initState, List.length_replicate]
  rw [getD_replicate_self]
  exact if_congr (by rw [exists_member_iff]; tauto) rfl rfl

theorem runInstances_pointVotesMask (f : Plane4 → List Pt3 → Plane4)
    (V : List ℤ) (g : ℤ → ℤ) (sc : Scene) (i : ℕ) :
    (runInstances f V g sc).pointVotesMask.getD i 0 =
      if i < labelsLen sc ∧ i < sc.pts.length ∧ retainedAt V sc i = true
      then 1 else 0 := by
  rw [runInstances, @foldl_getD_char ℝ (processInstance f V g sc)
    (fun s => s.pointVotesMask) (retained V sc) (memberIdx sc)
    (fun _ _ => (1 : ℝ)) (fun _ => (1 : ℝ)) 0
    (fun s l hc => by rw [processInstance_not_retained hc])
    (fun s l hc => processInstance_pointVotesMask hc)
    (fun l j hj => rfl)
    (uniqueSorted (instanceLabels sc)) (initState sc.pts.length) i]
  simp only [initState, List.length_replicate]
  rw [getD_replicate_self]
  exact if_congr (by rw [exists_member_iff]; tauto) rfl rfl

theorem runInstances_pointSemLabel (f : Plane4 → List Pt3 → Plane4)
    (V : List ℤ) (g : ℤ → ℤ) (sc : Scene) (i : ℕ) :
    (runInstances f V g sc).pointSemLabel.getD i 0 =
      if i < labelsLen sc ∧ i < sc.pts.length ∧ retainedAt V sc i = true
      then semLabelAt g sc i else 0 := by
  rw [runInstances, @foldl_getD_char ℝ (processInstance f V g sc)
    (fun s => s.pointSemLabel) (retained V sc) (memberIdx sc)
    (fun l _ => ((g (instMeta sc l).sem : ℤ) : ℝ))
    (semLabelAt g sc) 0
    (fun s l hc => by rw [processInstance_not_retained hc])
    (fun s l hc => processInstance_pointSemLabel hc)
    (fun l j hj => by rw [semLabelAt, (mem_memberIdx.mp hj).2])
    (uniqueSorted (instanceLabels sc)) (initState sc.pts.length) i]
  simp only [initState, List.length_replicate]
  rw [getD_replicate_self]
  exact if_congr (by rw [exists_member_iff]; tauto) rfl rfl

theorem runInstances_planeLabelMask (f : Plane4 → List Pt3 → Plane4)
    (V : List ℤ) (g : ℤ → ℤ) (sc : Scene) (i : ℕ) :
    (runInstances f V g sc).planeLabelMask.getD i 0 =
      if i < labelsLen sc ∧ i < sc.pts.length ∧ retainedAt V sc i = true ∧
          0 < planeVal sc i ∧
          10 < groupSize sc (labelAt sc i) (planeVal sc i)
      then 1 else 0 := by
  rw [runInstances, @foldl_getD_char ℝ (processInstance f V g sc)
    (fun s => s.planeLabelMask) (retained V sc) (planeIdxOf sc)
    (fun _ _ => (1 : ℝ)) (fun _ => (1 : ℝ)) 0
    (fun s l hc => by rw [processInstance_not_retained hc])
    (fun s l hc => processInstance_planeLabelMask hc)
    (fun l j hj => rfl)
    (uniqueSorted (instanceLabels sc)) (initState sc.pts.length) i]
  simp only [initState, List.length_replicate]
  rw [getD_replicate_self]
  exact if_congr (by rw [exists_plane_iff]; tauto) rfl rfl

theorem runInstances_planeVotesFront (f : Plane4 → List Pt3 → Plane4)
    (V : List ℤ) (g : ℤ → ℤ) (sc : Scene) (i : ℕ) :
    (runInstances f V g sc).planeVotesFront.getD i default =
      if i < labelsLen sc ∧ i < sc.pts.length ∧ retainedAt V sc i = true ∧
          0 < planeVal sc i ∧
          10 < groupSize sc (labelAt sc i) (planeVal sc i)
      then (sixAt f sc i).front else default := by
  rw [runInstances, @foldl_getD_char Plane4 (processInstance f V g sc)
    (fun s => s.planeVotesFront) (retained V sc) (planeIdxOf sc)
    (fun l _ => (computePlanes f (instCorners sc l)).front)
    (fun j => (sixAt f sc j).front) default
    (fun s l hc => by rw [processInstance_not_retained hc])
    (fun s l hc => processInstance_planeVotesFront hc)
    (fun l j hj => by
      simp only [sixAt]
      rw [(mem_memberIdx.mp (mem_planeIdxOf.mp hj).1).2])
    (uniqueSorted (instanceLabels sc)) (initState sc.pts.length) i]
  simp only [initState, List.length_replicate]
  rw [getD_replicate_self]
  exact if_congr (by rw [exists_plane_iff]; tauto) rfl rfl

theorem runInstances_planeVotesBack (f : Plane4 → List Pt3 → Plane4)
    (V : List ℤ) (g : ℤ → ℤ) (sc : Scene) (i : ℕ) :
    (runInstances f V g sc).planeVotesBack.getD i default =
      if i < labelsLen sc ∧ i < sc.pts.length ∧ retainedAt V sc i = true ∧
          0 < planeVal sc i ∧
          10 < groupSize sc (labelAt sc i) (planeVal sc i)
      then (sixAt f sc i).back else default := by
  rw [runInstances, @foldl_getD_char Plane4 (processInstance f V g sc)
    (fun s => s.planeVotesBack) (retained V sc) (planeIdxOf sc)
    (fun l _ => (computePlanes f (instCorners sc l)).back)
    (fun j => (sixAt f sc j).back) default
    (fun s l hc => by rw [processInstance_not_retained hc])
    (fun s l hc => processInstance_planeVotesBack hc)
    (fun l j hj => by
      simp only [sixAt]
      rw [(mem_memberIdx.mp (mem_planeIdxOf.mp hj).1).2])
    (uniqueSorted (instanceLabels sc)) (initState sc.pts.length) i]
  simp only [initState, List.length_replicate]
  rw [getD_replicate_self]
  exact if_congr (by rw [exists_plane_iff]; tauto) rfl rfl

theorem runInstances_planeVotesLeft (f : Plane4 → List Pt3 → Plane4)
    (V : List ℤ) (g : ℤ → ℤ) (sc : Scene) (i : ℕ) :
    (runInstances f V g sc).planeVotesLeft.getD i default =
      if i < labelsLen sc ∧ i < sc.pts.length ∧ retainedAt V sc i = true ∧
          0 < planeVal sc i ∧
          10 < groupSize sc (labelAt sc i) (planeVal sc i)
      then (sixAt f sc i).left else default := by
  rw [runInstances, @foldl_getD_char Plane4 (processInstance f V g sc)
    (fun s => s.planeVotesLeft) (retained V sc) (planeIdxOf sc)
    (fun l _ => (computePlanes f (instCorners sc l)).left)
    (fun j => (sixAt f sc j).left) default
    (fun s l hc => by rw [processInstance_not_retained hc])
    (fun s l hc => processInstance_planeVotesLeft hc)
    (fun l j hj => by
      simp only [sixAt]
      rw [(mem_memberIdx.mp (mem_planeIdxOf.mp hj).1).2])
    (uniqueSorted (instanceLabels sc)) (initState sc.pts.length) i]
  simp only [initState, List.length_replicate]
  rw [getD_replicate_self]
  exact if_congr (by rw [exists_plane_iff]; tauto) rfl rfl

theorem runInstances_planeVotesRight (f : Plane4 → List Pt3 → Plane4)
    (V : List ℤ) (g : ℤ → ℤ) (sc : Scene) (i : ℕ) :
    (runInstances f V g sc).planeVotesRight.getD i default =
      if i < labelsLen sc ∧ i < sc.pts.length ∧ retainedAt V sc i = true ∧
          0 < planeVal sc i ∧
          10 < groupSize sc (labelAt sc i) (planeVal sc i)
      then (sixAt f sc i).right else default := by
  rw [runInstances, @foldl_getD_char Plane4 (processInstance f V g sc)
    (fun s => s.planeVotesRight) (retained V sc) (planeIdxOf sc)
    (fun l _ => (computePlanes f (instCorners sc l)).right)
    (fun j => (sixAt f sc j).right) default
    (fun s l hc => by rw [processInstance_not_retained hc])
    (fun s l hc => processInstance_planeVotesRight hc)
    (fun l j hj => by
      simp only [sixAt]
      rw [(mem_memberIdx.mp (mem_planeIdxOf.mp hj).1).2])
    (uniqueSorted (instanceLabels sc)) (initState sc.pts.length) i]
  simp only [initState, List.length_replicate]
  rw [getD_replicate_self]
  exact if_congr (by rw [exists_plane_iff]; tauto) rfl rfl

theorem runInstances_planeVotesUpper (f : Plane4 → List Pt3 → Plane4)
    (V : List ℤ) (g : ℤ → ℤ) (sc : Scene) (i : ℕ) :
    (runInstances f V g sc).planeVotesUpper.getD i default =
      if i < labelsLen sc ∧ i < sc.pts.length ∧ retainedAt V sc i = true ∧
          0 < planeVal sc i ∧
          10 < groupSize sc (labelAt sc i) (planeVal sc i)
      then (sixAt f sc i).upper else default := by
  rw [runInstances, @foldl_getD_char Plane4 (processInstance f V g sc)
    (fun s => s.planeVotesUpper) (retained V sc) (planeIdxOf sc)
    (fun l _ => (computePlanes f (instCorners sc l)).upper)
    (fun j => (sixAt f sc j).upper) default
    (fun s l hc => by rw [processInstance_not_retained hc])
    (fun s l hc => processInstance_planeVotesUpper hc)
    (fun l j hj => by
      simp only [sixAt]
      rw [(mem_memberIdx.mp (mem_planeIdxOf.mp hj).1).2])
    (uniqueSorted (instanceLabels sc)) (initState sc.pts.length) i]
  simp only [initState, List.length_replicate]
  rw [getD_replicate_self]
  exact if_congr (by rw [exists_plane_iff]; tauto) rfl rfl

theorem runInstances_planeVotesLower (f : Plane4 → List Pt3 → Plane4)
    (V : List ℤ) (g : ℤ → ℤ) (sc : Scene) (i : ℕ) :
    (runInstances f V g sc).planeVotesLower.getD i default =
      if i < labelsLen sc ∧ i < sc.pts.length ∧ retainedAt V sc i = true ∧
          0 < planeVal sc i ∧
          10 < groupSize sc (labelAt sc i) (planeVal sc i)
      then (sixAt f sc i).lower else default := by
  rw [runInstances, @foldl_getD_char Plane4 (processInstance f V g sc)
    (fun s => s.planeVotesLower) (retained V sc) (planeIdxOf sc)
    (fun l _ => (computePlanes f (instCorners sc l)).lower)
    (fun j => (sixAt f sc j).lower) default
    (fun s l hc => by rw [processInstance_not_retained hc])
    (fun s l hc => processInstance_planeVotesLower hc)
    (fun l j hj => by
      simp only [sixAt]
      rw [(mem_memberIdx.mp (mem_planeIdxOf.mp hj).1).2])
    (uniqueSorted (instanceLabels sc)) (initState sc.pts.length) i]
  simp only [initState, List.length_replicate]
  rw [getD_replicate_self]
  exact if_congr (by rw [exists_plane_iff]; tauto) rfl rfl

theorem foldl_objMeta (f : Plane4 → List Pt3 → Plane4) (V : List ℤ)
    (g : ℤ → ℤ) (sc : Scene) :
    ∀ (L : List ℤ) (s : LoopState),
      (L.foldl (processInstance f V g sc) s).objMeta =
        s.objMeta ++
          (L.filter (fun l => retained V sc l)).map (instMeta sc) := by
  intro L
  induction L with
  | nil => intro s; simp
  | cons l L ih =>
    intro s
    rw [List.foldl_cons, ih]
    cases hc : retained V sc l with
    | false =>
      rw [processInstance_not_retained hc,
        List.filter_cons_of_neg (by simp [hc])]
    | true =>
      rw [processInstance_objMeta hc,
        List.filter_cons_of_pos (by simp [hc]), List.map_cons]
      simp

theorem runInstances_objMeta (f : Plane4 → List Pt3 → Plane4) (V : List ℤ)
    (g : ℤ → ℤ) (sc : Scene) :
    (runInstances f V g sc).objMeta =
      ((uniqueSorted (instanceLabels sc)).filter
        (fun l => retained V sc l)).map (instMeta sc) := by
  rw [runInstances, foldl_objMeta]
  simp [initState]

theorem listMin_le {l : List ℝ} : ∀ {j : ℕ}, j < l.length →
    listMin l ≤ l.getD j 0 := by
  induction l with
  | nil => intro j h; simp at h
  | cons x xs ih =>
    intro j h
    cases xs with
    | nil =>
      have hj : j = 0 := by simpa using Nat.lt_one_iff.mp (by simpa using h)
      subst hj
      simp [listMin]
    | cons y ys =>
      cases j with
      | zero =>
        simp only [listMin, List.getD_cons_zero]
        exact min_le_left _ _
      | succ j =>
        simp only [listMin, List.getD_cons_succ]
        exact le_trans (min_le_right _ _) (ih (by simpa using h))

theorem firstArgmin_lt_length {l : List ℝ} (h : l ≠ []) :
    firstArgmin l < l.length := by
  induction l with
  | nil => exact absurd rfl h
  | cons x xs ih =>
    cases xs with
    | nil => simp [firstArgmin]
    | cons y ys =>
      rw [firstArgmin]
      by_cases hx : x ≤ listMin (y :: ys)
      · rw [if_pos hx]
        simp
      · rw [if_neg hx]
        have := ih (by simp)
        simpa [Nat.succ_lt_succ_iff] using this

theorem getD_firstArgmin {l : List ℝ} (h : l ≠ []) :
    l.getD (firstArgmin l) 0 = listMin l := by
  induction l with
  | nil => exact absurd rfl h
  | cons x xs ih =>
    cases xs with
    | nil => simp [firstArgmin, listMin]
    | cons y ys =>
      rw [firstArgmin]
      by_cases hx : x ≤ listMin (y :: ys)
      · rw [if_pos hx]
        simp only [List.getD_cons_zero, listMin]
        exact (min_eq_left hx).symm
      · rw [if_neg hx]
        simp only [List.getD_cons_succ, listMin]
        rw [ih (by simp)]
        exact (min_eq_right (le_of_lt (not_le.mp hx))).symm

theorem firstArgmin_first {l : List ℝ} : ∀ {j : ℕ}, j < firstArgmin l →
    listMin l < l.getD j 0 := by
  induction l with
  | nil => intro j h; simp [firstArgmin] at h
  | cons x xs ih =>
    cases xs with
    | nil => intro j h; simp [firstArgmin] at h
    | cons y ys =>
      intro j h
      rw [firstArgmin] at h
      by_cases hx : x ≤ listMin (y :: ys)
      · rw [if_pos hx] at h
        exact absurd h (by omega)
      · rw [if_neg hx] at h
        have hm : listMin (x :: y :: ys) = listMin (y :: ys) := by
          simp only [listMin]
          exact min_eq_right (le_of_lt (not_le.mp hx))
        cases j with
        | zero =>
          rw [List.getD_cons_zero, hm]
          exact not_le.mp hx
        | succ j =>
          rw [List.getD_cons_succ, hm]
          exact ih (Nat.lt_of_succ_lt_succ h)

theorem instMeta_ins {V : List ℤ} {sc : Scene} {l : ℤ}
    (hr : retained V sc l = true) : (instMeta sc l).ins = l := by
  cases hmi : memberIdx sc l with
  | nil =>
    exfalso
    unfold retained at hr
    rw [hmi] at hr
    exact Bool.false_ne_true hr
  | cons i0 rest =>
    have hmem : i0 ∈ memberIdx sc l := by
      rw [hmi]
      exact List.mem_cons_self _ _
    have hlab := (mem_memberIdx.mp hmem).2
    rw [instMeta, hmi]
    simp only [List.headD_cons]
    rw [← hlab, labelAt, instanceLabels]
    exact (getD_map_default (fun m => m.ins) sc.metas i0 default).symm

theorem assembleTargets_eq_none_iff (V : List ℤ) (g2 : ℤ → ℤ)
    (ms : ℕ → Pt3) (nb : ℕ) (om : List MetaRow) :
    assembleTargets V g2 ms nb om = none ↔ 64 < om.length := by
  by_cases h : 64 < om.length <;> simp [assembleTargets, h]

theorem getD_range_map {n : ℕ} (f : ℕ → α) {j : ℕ} (h : j < n) (d : α) :
    ((List.range n).map f).getD j d = f j := by
  rw [getD_map_lt f (by simpa using h) d 0]
  congr 1
  rw [List.getD_eq_getElem _ _ (by simpa using h), List.getElem_range]

theorem getD_range64_mask {num : ℕ} (j : ℕ) :
    ((List.range 64).map (fun k => if k < num then (1 : ℝ) else 0)).getD j 0 =
      if j < num ∧ j < 64 then 1 else 0 := by
  by_cases hj : j < 64
  · rw [getD_range_map _ hj]
    by_cases hn : j < num
    · rw [if_pos hn, if_pos ⟨hn, hj⟩]
    · rw [if_neg hn, if_neg (fun hc => hn hc.1)]
  · rw [List.getD_eq_default _ _ (by simpa using not_lt.mp hj),
      if_neg (fun hc => hj hc.2)]

theorem getD_range64_pad {num : ℕ} (f : ℕ → α) (d : α) {j : ℕ}
    (hj : num ≤ j) :
    ((List.range 64).map (fun k => if k < num then f k else d)).getD j d =
      d := by
  by_cases hj64 : j < 64
  · rw [getD_range_map _ hj64, if_neg (by omega)]
  · exact List.getD_eq_default _ _ (by simpa using not_lt.mp hj64)

theorem getitemLabels_eq_none_iff (f : Plane4 → List Pt3 → Plane4)
    (V : List ℤ) (g g2 : ℤ → ℤ) (ms : ℕ → Pt3) (nb : ℕ) (sc : Scene) :
    getitemLabels f V g g2 ms nb sc = none ↔ 64 < numRetained V sc := by
  have hlen : (runInstances f V g sc).objMeta.length = numRetained V sc := by
    rw [runInstances_objMeta, List.length_map]
    rfl
  rw [getitemLabels]
  cases has : assembleTargets V g2 ms nb (runInstances f V g sc).objMeta with
  | none =>
    constructor
    · intro _
      rw [← hlen]
      exact (assembleTargets_eq_none_iff _ _ _ _ _).mp has
    · intro _
      rfl
  | some t =>
    constructor
    · intro hcontr
      exact absurd hcontr (by simp)
    · intro h64
      have h2 := (assembleTargets_eq_none_iff V g2 ms nb
        (runInstances f V g sc).objMeta).mpr (by rw [hlen]; exact h64)
      rw [has] at h2
      exact absurd h2 (by simp)

theorem getitemLabels_isSome_iff (f : Plane4 → List Pt3 → Plane4)
    (V : List ℤ) (g g2 : ℤ → ℤ) (ms : ℕ → Pt3) (nb : ℕ) (sc : Scene) :
    (getitemLabels f V g g2 ms nb sc).isSome ↔ numRetained V sc ≤ 64 := by
  rw [Option.isSome_iff_ne_none, ne_eq, getitemLabels_eq_none_iff, not_lt]

theorem getitemLabels_points (f : Plane4 → List Pt3 → Plane4) (V : List ℤ)
    (g g2 : ℤ → ℤ) (ms : ℕ → Pt3) (nb : ℕ) (sc : Scene) :
    ∀ h : (getitemLabels f V g g2 ms nb sc).isSome,
      ((getitemLabels f V g g2 ms nb sc).get h).points = sc.pts := by
  rw [getitemLabels]
  cases has : assembleTargets V g2 ms nb (runInstances f V g sc).objMeta with
  | none =>
    intro h
    simp at h
  | some t =>
    intro h
    rfl

theorem getitemLabels_labels (f : Plane4 → List Pt3 → Plane4) (V : List ℤ)
    (g g2 : ℤ → ℤ) (ms : ℕ → Pt3) (nb : ℕ) (sc : Scene) :
    ∀ h : (getitemLabels f V g g2 ms nb sc).isSome,
      ((getitemLabels f V g g2 ms nb sc).get h).labels =
        runInstances f V g sc := by
  rw [getitemLabels]
  cases has : assembleTargets V g2 ms nb (runInstances f V g sc).objMeta with
  | none =>
    intro h
    simp at h
  | some t =>
    intro h
    rfl

theorem gather_map (f : α → β) (xs : List α) (idxs : List ℕ) (d : α) :
    gather (xs.map f) idxs (f d) = (gather xs idxs d).map f := by
  simp only [gather, List.map_map]
  exact List.map_congr_left (fun i _ => getD_map_default f xs i d)

theorem resampleChoices_spec {labels : List ℤ} {draws : List (List ℕ)}
    {choices : List ℕ} (h : resampleChoices labels draws = some choices) :
    choices ∈ draws ∧
      uniqueSorted (gather labels choices 0) = uniqueSorted labels := by
  induction draws with
  | nil => simp [resampleChoices] at h
  | cons c rest ih =>
    rw [resampleChoices] at h
    by_cases hc : uniqueSorted (gather labels c 0) = uniqueSorted labels
    · rw [if_pos hc] at h
      obtain rfl : c = choices := by injection h
      exact ⟨List.mem_cons_self c rest, hc⟩
    · rw [if_neg hc] at h
      obtain ⟨hmem, hu⟩ := ih h
      exact ⟨List.mem_cons_of_mem c hmem, hu⟩

/-- C1: when the rejection-resampling loop of lines 211-225 accepts a draw,
the subsampled point cloud has exactly `num_points` points (given that every
candidate draw has that length), the set of distinct instance ids present
after subsampling equals the set present before, and every companion
per-point array (metadata — hence the semantic-label column —, plane
vertices, colors) is indexed by the same accepted choices. -/
theorem c1_subsample_invariant (raw : RawScene) (draws : List (List ℕ))
    (numPoints : ℕ) (choices : List ℕ)
    (h : resampleChoices (rawInstanceLabels raw) draws = some choices)
    (hlen : ∀ c ∈ draws, c.length = numPoints) :
    subsampleScene raw draws =
      some ⟨gather raw.pointCloud choices 0, gather raw.metas choices default,
        gather raw.planeVerts choices default, gather raw.pclColor choices 0,
        choices⟩ ∧
    (gather raw.pointCloud choices 0).length = numPoints ∧
    uniqueSorted (gather (rawInstanceLabels raw) choices 0) =
      uniqueSorted (rawInstanceLabels raw) ∧
    (∀ l : ℤ, l ∈ gather (rawInstanceLabels raw) choices 0 ↔
      l ∈ rawInstanceLabels raw) ∧
    gather (rawInstanceLabels raw) choices 0 =
      (gather raw.metas choices default).map (fun m => m.ins) ∧
    gather (raw.metas.map (fun m => m.sem)) choices 0 =
      (gather raw.metas choices default).map (fun m => m.sem) := by
  obtain ⟨hmem, hu⟩ := resampleChoices_spec h
  refine ⟨?_, ?_, hu, ?_, ?_, ?_⟩
  · simp [subsampleScene, h]
  · simp [gather, hlen choices hmem]
  · intro l
    constructor
    · intro hl
      rw [← mem_uniqueSorted, hu, mem_uniqueSorted] at hl
      exact hl
    · intro hl
      rw [← mem_uniqueSorted, ← hu, mem_uniqueSorted] at hl
      exact hl
  · exact gather_map (fun m => m.ins) raw.metas choices default
  · exact gather_map (fun m => m.sem) raw.metas choices default

/-- Witness for C1: the identity draw `[0, 1]` is accepted at once. -/
theorem c1_subsample_invariant_witness :
    (resampleChoices (rawInstanceLabels rawSceneA) [[0, 1]] = some [0, 1] ∧
      ∀ c ∈ [[0, 1]], List.length c = 2) ∧
    (subsampleScene rawSceneA [[0, 1]] =
      some ⟨gather rawSceneA.pointCloud [0, 1] 0,
        gather rawSceneA.metas [0, 1] default,
        gather rawSceneA.planeVerts [0, 1] default,
        gather rawSceneA.pclColor [0, 1] 0, [0, 1]⟩ ∧
    (gather rawSceneA.pointCloud [0, 1] 0).length = 2 ∧
    uniqueSorted (gather (rawInstanceLabels rawSceneA) [0, 1] 0) =
      uniqueSorted (rawInstanceLabels rawSceneA) ∧
    (∀ l : ℤ, l ∈ gather (rawInstanceLabels rawSceneA) [0, 1] 0 ↔
      l ∈ rawInstanceLabels rawSceneA) ∧
    gather (rawInstanceLabels rawSceneA) [0, 1] 0 =
      (gather rawSceneA.metas [0, 1] default).map (fun m => m.ins) ∧
    gather (rawSceneA.metas.map (fun m => m.sem)) [0, 1] 0 =
      (gather rawSceneA.metas [0, 1] default).map (fun m => m.sem)) :=
  ⟨⟨by decide, by decide⟩,
    c1_subsample_invariant rawSceneA [[0, 1]] 2 [0, 1] (by decide) (by decide)⟩

/-- C4: for every member point of every retained instance the stored center
vote is exactly `instance.center - p` (the canonical metadata center minus the
point), the point-vote mask is 1 there, and the mask is 0 at every point whose
instance is not retained. -/
theorem c4_center_votes (f : Plane4 → List Pt3 → Plane4) (V : List ℤ)
    (g : ℤ → ℤ) (sc : Scene) (i : ℕ) (hm : i < labelsLen sc)
    (hn : i < sc.pts.length) (hr : retainedAt V sc i = true) :
    (runInstances f V g sc).pointVotes.getD i 0 =
      (instMeta sc (labelAt sc i)).center - sc.pts.getD i 0 ∧
    (runInstances f V g sc).pointVotesMask.getD i 0 = 1 ∧
    ∀ j : ℕ, retainedAt V sc j = false →
      (runInstances f V g sc).pointVotesMask.getD j 0 = 0 := by
  refine ⟨?_, ?_, ?_⟩
  · rw [runInstances_pointVotes, if_pos ⟨hm, hn, hr⟩]
    rfl
  · rw [runInstances_pointVotesMask, if_pos ⟨hm, hn, hr⟩]
  · intro j hj
    rw [runInstances_pointVotesMask, if_neg]
    rintro ⟨-, -, hrj⟩
    rw [hj] at hrj
    exact Bool.false_ne_true hrj

/-- Witness for C4 on the one-point scene. -/
theorem c4_center_votes_witness :
    (0 < labelsLen sceneOne ∧ 0 < sceneOne.pts.length ∧
      retainedAt [3] sceneOne 0 = true) ∧
    ((runInstances fitZero [3] semMapZero sceneOne).pointVotes.getD 0 0 =
      (instMeta sceneOne (labelAt sceneOne 0)).center -
        sceneOne.pts.getD 0 0 ∧
    (runInstances fitZero [3] semMapZero sceneOne).pointVotesMask.getD 0 0 =
      1 ∧
    ∀ j : ℕ, retainedAt [3] sceneOne j = false →
      (runInstances fitZero [3] semMapZero sceneOne).pointVotesMask.getD j 0 =
        0) :=
  ⟨⟨by decide, by decide, by decide⟩,
    c4_center_votes fitZero [3] semMapZero sceneOne 0 (by decide) (by decide)
      (by decide)⟩

/-- C5: for every member point of a retained instance the corner vote is
`assignedCorner - p`, where the assigned corner is selected by `firstArgmin`
over the 8 squared corner distances; that index attains the minimum distance,
and on ties it is the lowest minimizing index (strictly smaller distance than
every earlier index), deterministically. -/
theorem c5_corner_votes (f : Plane4 → List Pt3 → Plane4) (V : List ℤ)
    (g : ℤ → ℤ) (sc : Scene) (i : ℕ) (hm : i < labelsLen sc)
    (hn : i < sc.pts.length) (hr : retainedAt V sc i = true) :
    (runInstances f V g sc).pointVotesCorner.getD i 0 =
      (instCorners sc (labelAt sc i)).getD
        (firstArgmin (cornerDists sc i)) 0 - sc.pts.getD i 0 ∧
    (cornerDists sc i).length = 8 ∧
    firstArgmin (cornerDists sc i) < (cornerDists sc i).length ∧
    (∀ j < (cornerDists sc i).length,
      (cornerDists sc i).getD (firstArgmin (cornerDists sc i)) 0 ≤
        (cornerDists sc i).getD j 0) ∧
    ∀ j < firstArgmin (cornerDists sc i),
      (cornerDists sc i).getD (firstArgmin (cornerDists sc i)) 0 <
        (cornerDists sc i).getD j 0 := by
  have hlen8 : (cornerDists sc i).length = 8 := by
    simp [cornerDists, instCorners, params2bbox]
  have hne : cornerDists sc i ≠ [] := by
    intro hc
    rw [hc] at hlen8
    simp at hlen8
  refine ⟨?_, hlen8, firstArgmin_lt_length hne, ?_, ?_⟩
  · rw [runInstances_pointVotesCorner, if_pos ⟨hm, hn, hr⟩]
    rfl
  · intro j hj
    rw [getD_firstArgmin hne]
    exact listMin_le hj
  · intro j hj
    rw [getD_firstArgmin hne]
    exact firstArgmin_first hj

/-- Witness for C5 on the one-point scene. -/
theorem c5_corner_votes_witness :
    (0 < labelsLen sceneOne ∧ 0 < sceneOne.pts.length ∧
      retainedAt [3] sceneOne 0 = true) ∧
    ((runInstances fitZero [3] semMapZero sceneOne).pointVotesCorner.getD 0
        0 =
      (instCorners sceneOne (labelAt sceneOne 0)).getD
        (firstArgmin (cornerDists sceneOne 0)) 0 - sceneOne.pts.getD 0 0 ∧
    (cornerDists sceneOne 0).length = 8 ∧
    firstArgmin (cornerDists sceneOne 0) < (cornerDists sceneOne 0).length ∧
    (∀ j < (cornerDists sceneOne 0).length,
      (cornerDists sceneOne 0).getD (firstArgmin (cornerDists sceneOne 0))
          0 ≤
        (cornerDists sceneOne 0).getD j 0) ∧
    ∀ j < firstArgmin (cornerDists sceneOne 0),
      (cornerDists sceneOne 0).getD (firstArgmin (cornerDists sceneOne 0))
          0 <
        (cornerDists sceneOne 0).getD j 0) :=
  ⟨⟨by decide, by decide, by decide⟩,
    c5_corner_votes fitZero [3] semMapZero sceneOne 0 (by decide) (by decide)
      (by decide)⟩

/-- C6 (amended): for a member point of a retained instance, plane labels are
assigned exactly when the point's plane patch is positive and has strictly
more than 10 support points within the instance (the source tests
`len(temp_ind) > 10`, so a patch with exactly 10 points is discarded): then
the plane mask is 1 and the six face-plane equations of the instance are
broadcast to the point; otherwise the plane mask stays 0. -/
theorem c6_plane_group_threshold (f : Plane4 → List Pt3 → Plane4)
    (V : List ℤ) (g : ℤ → ℤ) (sc : Scene) (i : ℕ) (hm : i < labelsLen sc)
    (hn : i < sc.pts.length) (hr : retainedAt V sc i = true) :
    (0 < planeVal sc i ∧
        10 < groupSize sc (labelAt sc i) (planeVal sc i) →
      (runInstances f V g sc).planeLabelMask.getD i 0 = 1 ∧
      (runInstances f V g sc).planeVotesFront.getD i default =
        (sixAt f sc i).front ∧
      (runInstances f V g sc).planeVotesBack.getD i default =
        (sixAt f sc i).back ∧
      (runInstances f V g sc).planeVotesLeft.getD i default =
        (sixAt f sc i).left ∧
      (runInstances f V g sc).planeVotesRight.getD i default =
        (sixAt f sc i).right ∧
      (runInstances f V g sc).planeVotesUpper.getD i default =
        (sixAt f sc i).upper ∧
      (runInstances f V g sc).planeVotesLower.getD i default =
        (sixAt f sc i).lower) ∧
    (¬(0 < planeVal sc i ∧
        10 < groupSize sc (labelAt sc i) (planeVal sc i)) →
      (runInstances f V g sc).planeLabelMask.getD i 0 = 0) := by
  constructor
  · rintro ⟨hpv, hgs⟩
    refine ⟨?_, ?_, ?_, ?_, ?_, ?_, ?_⟩
    · rw [runInstances_planeLabelMask, if_pos ⟨hm, hn, hr, hpv, hgs⟩]
    · rw [runInstances_planeVotesFront, if_pos ⟨hm, hn, hr, hpv, hgs⟩]
    · rw [runInstances_planeVotesBack, if_pos ⟨hm, hn, hr, hpv, hgs⟩]
    · rw [runInstances_planeVotesLeft, if_pos ⟨hm, hn, hr, hpv, hgs⟩]
    · rw [runInstances_planeVotesRight, if_pos ⟨hm, hn, hr, hpv, hgs⟩]
    · rw [runInstances_planeVotesUpper, if_pos ⟨hm, hn, hr, hpv, hgs⟩]
    · rw [runInstances_planeVotesLower, if_pos ⟨hm, hn, hr, hpv, hgs⟩]
  · intro hneg
    rw [runInstances_planeLabelMask, if_neg]
    rintro ⟨-, -, -, hpv, hgs⟩
    exact hneg ⟨hpv, hgs⟩

/-- Witness for C6 (amended) on the 11-point one-patch scene. -/
theorem c6_plane_group_threshold_witness :
    (0 < labelsLen scene11 ∧ 0 < scene11.pts.length ∧
      retainedAt [3] scene11 0 = true ∧ 0 < planeVal scene11 0 ∧
      10 < groupSize scene11 (labelAt scene11 0) (planeVal scene11 0)) ∧
    ((runInstances fitZero [3] semMapZero scene11).planeLabelMask.getD 0 0 =
      1 ∧
    (runInstances fitZero [3] semMapZero scene11).planeVotesFront.getD 0
        default = (sixAt fitZero scene11 0).front ∧
    (runInstances fitZero [3] semMapZero scene11).planeVotesBack.getD 0
        default = (sixAt fitZero scene11 0).back ∧
    (runInstances fitZero [3] semMapZero scene11).planeVotesLeft.getD 0
        default = (sixAt fitZero scene11 0).left ∧
    (runInstances fitZero [3] semMapZero scene11).planeVotesRight.getD 0
        default = (sixAt fitZero scene11 0).right ∧
    (runInstances fitZero [3] semMapZero scene11).planeVotesUpper.getD 0
        default = (sixAt fitZero scene11 0).upper ∧
    (runInstances fitZero [3] semMapZero scene11).planeVotesLower.getD 0
        default = (sixAt fitZero scene11 0).lower) :=
  ⟨⟨by decide, by decide, by decide, by decide, by decide⟩,
    (c6_plane_group_threshold fitZero [3] semMapZero scene11 0 (by decide)
      (by decide) (by decide)).1 ⟨by decide, by decide⟩⟩

/-- Counterexample for C6 as stated: in a retained instance whose single
plane patch has exactly 10 support points ("at least 10" per the claim), the
plane-label mask of its points remains 0, not 1: the source requires strictly
more than 10. -/
theorem c6_counterexample :
    (0 < planeVal scene10 0 ∧
      groupSize scene10 (labelAt scene10 0) (planeVal scene10 0) = 10 ∧
      retainedAt [3] scene10 0 = true) ∧
    (runInstances fitZero [3] semMapZero scene10).planeLabelMask.getD 0 0 ≠
      1 := by
  refine ⟨⟨by decide, by decide, by decide⟩, ?_⟩
  rw [runInstances_planeLabelMask, if_neg]
  · norm_num
  · rintro ⟨-, -, -, -, hgs⟩
    have h10 : groupSize scene10 (labelAt scene10 0) (planeVal scene10 0) =
        10 := by decide
    omega

theorem assembleTargets_props (V : List ℤ) (g2 : ℤ → ℤ) (ms : ℕ → Pt3)
    (nb : ℕ) (om : List MetaRow) (h : ¬64 < om.length) :
    ∃ t, assembleTargets V g2 ms nb om = some t ∧
      t.boxLabelMask.length = 64 ∧
      (∀ j : ℕ, t.boxLabelMask.getD j 0 =
        if j < om.length ∧ j < 64 then 1 else 0) ∧
      ∀ j : ℕ, om.length ≤ j →
        t.centerLabel.getD j 0 = 0 ∧ t.angleClasses.getD j 0 = 0 ∧
        t.angleResiduals.getD j 0 = 0 ∧ t.sizeClasses.getD j 0 = 0 ∧
        t.sizeResiduals.getD j 0 = 0 ∧ t.semClsLabel.getD j 0 = 0 := by
  refine ⟨_, by rw [assembleTargets, if_neg h], ?_, ?_, ?_⟩
  · simp
  · intro j
    exact getD_range64_mask j
  · intro j hj
    refine ⟨?_, ?_, ?_, ?_, ?_, ?_⟩
    · exact getD_range64_pad (fun k => (om.getD k default).center)
        (0 : Pt3) hj
    · exact getD_range64_pad
        (fun k => (angle2class2 nb (om.getD k default).heading).1)
        (0 : ℤ) hj
    · exact getD_range64_pad
        (fun k => (angle2class2 nb (om.getD k default).heading).2)
        (0 : ℝ) hj
    · exact getD_range64_pad
        (fun k => V.indexOf (om.getD k default).sem) (0 : ℕ) hj
    · exact getD_range64_pad
        (fun k => ((om.getD k default).sx, (om.getD k default).sy,
          (om.getD k default).sz) -
            ms (V.indexOf (om.getD k default).sem)) (0 : Pt3) hj
    · exact getD_range64_pad (fun k => g2 (om.getD k default).sem)
        (0 : ℤ) hj

/-- C7 (amended): with more retained instances than `MAX_NUM_OBJ = 64`,
`__getitem__` does not silently truncate — the numpy slice assignment of line
430 raises, so no label bundle is returned; with at most 64 instances a
bundle is returned whose box mask is 1 exactly on the instance slots (hence
at most 64 ones) and whose per-instance arrays are zero beyond the instance
count. -/
theorem c7_instance_cap (f : Plane4 → List Pt3 → Plane4) (V : List ℤ)
    (g g2 : ℤ → ℤ) (ms : ℕ → Pt3) (nb : ℕ) (sc : Scene) :
    (64 < numRetained V sc → getitemLabels f V g g2 ms nb sc = none) ∧
    (numRetained V sc ≤ 64 →
      ∃ b, getitemLabels f V g g2 ms nb sc = some b ∧
        b.targets.boxLabelMask.length = 64 ∧
        (∀ j : ℕ, b.targets.boxLabelMask.getD j 0 =
          if j < numRetained V sc ∧ j < 64 then 1 else 0) ∧
        ∀ j : ℕ, numRetained V sc ≤ j →
          b.targets.centerLabel.getD j 0 = 0 ∧
          b.targets.angleClasses.getD j 0 = 0 ∧
          b.targets.angleResiduals.getD j 0 = 0 ∧
          b.targets.sizeClasses.getD j 0 = 0 ∧
          b.targets.sizeResiduals.getD j 0 = 0 ∧
          b.targets.semClsLabel.getD j 0 = 0) := by
  have hlen : (runInstances f V g sc).objMeta.length = numRetained V sc := by
    rw [runInstances_objMeta, List.length_map]
    rfl
  constructor
  · exact fun h => (getitemLabels_eq_none_iff f V g g2 ms nb sc).mpr h
  · intro h64
    obtain ⟨t, has, hL, hmask, hpad⟩ := assembleTargets_props V g2 ms nb
      (runInstances f V g sc).objMeta (by omega)
    refine ⟨⟨sc.pts, runInstances f V g sc, t⟩, ?_, hL, ?_, ?_⟩
    · rw [getitemLabels, has]
    · intro j
      rw [hmask j, hlen]
    · intro j hj
      exact hpad j (by rw [hlen]; exact hj)

/-- Witness for C7 (amended): the 65-instance scene aborts, the one-instance
scene yields a bundle with the padded mask. -/
theorem c7_instance_cap_witness :
    (64 < numRetained [3] scene65 ∧
      getitemLabels fitZero [3] semMapZero semMapZero meanSizeZero 24
        scene65 = none) ∧
    (numRetained [3] sceneOne ≤ 64 ∧
      ∃ b, getitemLabels fitZero [3] semMapZero semMapZero meanSizeZero 24
          sceneOne = some b ∧
        b.targets.boxLabelMask.length = 64 ∧
        (∀ j : ℕ, b.targets.boxLabelMask.getD j 0 =
          if j < numRetained [3] sceneOne ∧ j < 64 then 1 else 0) ∧
        ∀ j : ℕ, numRetained [3] sceneOne ≤ j →
          b.targets.centerLabel.getD j 0 = 0 ∧
          b.targets.angleClasses.getD j 0 = 0 ∧
          b.targets.angleResiduals.getD j 0 = 0 ∧
          b.targets.sizeClasses.getD j 0 = 0 ∧
          b.targets.sizeResiduals.getD j 0 = 0 ∧
          b.targets.semClsLabel.getD j 0 = 0) :=
  ⟨⟨by decide,
    (c7_instance_cap fitZero [3] semMapZero semMapZero meanSizeZero 24
      scene65).1 (by decide)⟩,
   ⟨by decide,
    (c7_instance_cap fitZero [3] semMapZero semMapZero meanSizeZero 24
      sceneOne).2 (by decide)⟩⟩

/-- Counterexample for C7 as stated: on a scene with 65 valid instances the
code does not silently truncate and return a zero-padded bundle — the numpy
broadcast of line 430 fails, so `__getitem__` produces no output at all. -/
theorem c7_counterexample :
    64 < numRetained [3] scene65 ∧
    getitemLabels fitZero [3] semMapZero semMapZero meanSizeZero 24 scene65 =
      none := by
  have h : 64 < numRetained [3] scene65 := by decide
  exact ⟨h, (getitemLabels_eq_none_iff _ _ _ _ _ _ _).mpr h⟩

/-- C9: a point whose instance is not retained (its representative semantic
id is outside the valid set) gets vote mask 0, plane mask 0, zero center and
corner votes and zero semantic label; every box entry comes from a retained
instance; and the point cloud of the returned bundle is the scene's point
list unchanged. -/
theorem c9_background_instances (f : Plane4 → List Pt3 → Plane4)
    (V : List ℤ) (g g2 : ℤ → ℤ) (ms : ℕ → Pt3) (nb : ℕ) (sc : Scene)
    (i : ℕ) (hr : retainedAt V sc i = false) :
    (runInstances f V g sc).pointVotesMask.getD i 0 = 0 ∧
    (runInstances f V g sc).planeLabelMask.getD i 0 = 0 ∧
    (runInstances f V g sc).pointVotes.getD i 0 = 0 ∧
    (runInstances f V g sc).pointVotesCorner.getD i 0 = 0 ∧
    (runInstances f V g sc).pointSemLabel.getD i 0 = 0 ∧
    (∀ mr ∈ (runInstances f V g sc).objMeta, retained V sc mr.ins = true) ∧
    ∀ h : (getitemLabels f V g g2 ms nb sc).isSome,
      ((getitemLabels f V g g2 ms nb sc).get h).points = sc.pts := by
  refine ⟨?_, ?_, ?_, ?_, ?_, ?_, getitemLabels_points f V g g2 ms nb sc⟩
  · rw [runInstances_pointVotesMask, if_neg]
    rintro ⟨-, -, hc⟩
    rw [hr] at hc
    exact Bool.false_ne_true hc
  · rw [runInstances_planeLabelMask, if_neg]
    rintro ⟨-, -, hc, -, -⟩
    rw [hr] at hc
    exact Bool.false_ne_true hc
  · rw [runInstances_pointVotes, if_neg]
    rintro ⟨-, -, hc⟩
    rw [hr] at hc
    exact Bool.false_ne_true hc
  · rw [runInstances_pointVotesCorner, if_neg]
    rintro ⟨-, -, hc⟩
    rw [hr] at hc
    exact Bool.false_ne_true hc
  · rw [runInstances_pointSemLabel, if_neg]
    rintro ⟨-, -, hc⟩
    rw [hr] at hc
    exact Bool.false_ne_true hc
  · rw [runInstances_objMeta]
    intro mr hmr
    rw [List.mem_map] at hmr
    obtain ⟨l, hl, rfl⟩ := hmr
    rw [List.mem_filter] at hl
    rw [instMeta_ins hl.2]
    exact hl.2

/-- Witness for C9 on the one-point scene with an invalid semantic id. -/
theorem c9_background_instances_witness :
    retainedAt [3] sceneBad 0 = false ∧
    ((runInstances fitZero [3] semMapZero sceneBad).pointVotesMask.getD 0 0 =
      0 ∧
    (runInstances fitZero [3] semMapZero sceneBad).planeLabelMask.getD 0 0 =
      0 ∧
    (runInstances fitZero [3] semMapZero sceneBad).pointVotes.getD 0 0 = 0 ∧
    (runInstances fitZero [3] semMapZero sceneBad).pointVotesCorner.getD 0
        0 = 0 ∧
    (runInstances fitZero [3] semMapZero sceneBad).pointSemLabel.getD 0 0 =
      0 ∧
    (∀ mr ∈ (runInstances fitZero [3] semMapZero sceneBad).objMeta,
      retained [3] sceneBad mr.ins = true) ∧
    ∀ h : (getitemLabels fitZero [3] semMapZero semMapZero meanSizeZero 24
        sceneBad).isSome,
      ((getitemLabels fitZero [3] semMapZero semMapZero meanSizeZero 24
        sceneBad).get h).points = sceneBad.pts) :=
  ⟨by decide,
    c9_background_instances fitZero [3] semMapZero semMapZero meanSizeZero 24
      sceneBad 0 (by decide)⟩

/-- C10: the plane-label mask never exceeds the vote-label mask pointwise —
plane supervision is only assigned to points that also carry vote
supervision, since plane groups are formed from member points of retained
instances only. -/
theorem c10_plane_mask_le_vote_mask (f : Plane4 → List Pt3 → Plane4)
    (V : List ℤ) (g : ℤ → ℤ) (sc : Scene) (i : ℕ) :
    (runInstances f V g sc).planeLabelMask.getD i 0 ≤
      (runInstances f V g sc).pointVotesMask.getD i 0 := by
  rw [runInstances_planeLabelMask, runInstances_pointVotesMask]
  by_cases hp : i < labelsLen sc ∧ i < sc.pts.length ∧
      retainedAt V sc i = true ∧ 0 < planeVal sc i ∧
      10 < groupSize sc (labelAt sc i) (planeVal sc i)
  · rw [if_pos hp, if_pos ⟨hp.1, hp.2.1, hp.2.2.1⟩]
  · rw [if_neg hp]
    by_cases hv : i < labelsLen sc ∧ i < sc.pts.length ∧
        retainedAt V sc i = true
    · rw [if_pos hv]
      norm_num
    · rw [if_neg hv]

end H3DNet
